import Mathlib

/-!
# Stargate Tactics — verification of the combat engine

Shallow embedding of the game engine of the `stargate-tactics` repository
(hex geometry, A* pathfinding, modifier deck, combat resolver, enemy AI and
the round-end orchestration), together with theorems settling the spec's
claims about it.

Modelling conventions:

* JavaScript numbers holding health / shield / damage values are modelled as
  `Int` with every `Math.max` / `Math.min` clamp written out explicitly;
  distances, ranges, move allowances and list indices are `Nat`.
* A JS `Map` keyed by the hex key string `"q,r"` is modelled as an
  association list keyed by the hex itself (the key function is injective,
  so membership and lookup agree).  `Map.set` is modelled by consing the new
  binding in front (lookups see the latest binding, as in JS).
* Reads of the form `map.get(k) ?? Infinity` are modelled as `Option Nat`
  lookups with `none` standing for `Infinity`; the code never stores an
  infinite score, so stored values are plain `Nat`.
* The two unbounded `while` loops (A* and BFS) are modelled with an explicit
  iteration budget (`fuel`).  Running out of budget returns the same value
  the loop's normal exhaustion exit returns, and every theorem below is
  proved for **every** budget, so it in particular describes the value the
  JS loop returns whenever it terminates.
* Event-bus emissions and log messages are presentation concerns and carry
  no engine state; they are dropped, except where a claim is about the
  emitted report itself (`executePush`), in which case the report is part of
  the returned value.
-/

namespace StargateTactics

/-! ## Hex geometry (`src/js/hexMath.js`) -/

/-- Axial hex coordinate `(q, r)`. -/
structure Hex where
  q : Int
  r : Int
deriving DecidableEq, Repr

namespace HexMath

/-- `HexMath.distance`: cube-coordinate Manhattan distance, halved.
The cube `s` coordinate is `-q - r`. -/
def distance (a b : Hex) : Nat :=
  ((a.q - b.q).natAbs + (a.r - b.r).natAbs +
    ((-a.q - a.r) - (-b.q - b.r)).natAbs) / 2

/-- The fixed direction table shared by `neighbors` and `getDirection`. -/
def directions : List Hex :=
  [⟨1, 0⟩, ⟨1, -1⟩, ⟨0, -1⟩, ⟨-1, 0⟩, ⟨-1, 1⟩, ⟨0, 1⟩]

/-- `HexMath.neighbors`: the six adjacent hexes. -/
def neighbors (h : Hex) : List Hex :=
  directions.map (fun d => ⟨h.q + d.q, h.r + d.r⟩)

/-- `HexMath.add`. -/
def add (h d : Hex) : Hex := ⟨h.q + d.q, h.r + d.r⟩

/-- `HexMath.equals` is ordinary component-wise equality (`DecidableEq`). -/
def equals (a b : Hex) : Bool := a = b

/-- `HexMath.getDirection`: the direction whose dot product with the
`from → to` vector is largest; the scan starts from `bestDot = -Infinity`
(modelled as `none`) so the first direction always replaces the initial
value, and only a strictly larger dot product replaces the current best. -/
def getDirection (src dst : Hex) : Hex :=
  let dq := dst.q - src.q
  let dr := dst.r - src.r
  (directions.foldl
    (fun (acc : Hex × Option Int) dir =>
      let dot := dq * dir.q + dr * dir.r
      match acc.2 with
      | none => (dir, some dot)
      | some bestDot => if dot > bestDot then (dir, some dot) else acc)
    (⟨1, 0⟩, none)).1

/-- Integer interval `[lo, hi]` as a list (empty when `hi < lo`). -/
def intRange (lo hi : Int) : List Int :=
  (List.range (hi - lo + 1).toNat).map (fun i => lo + i)

/-- `HexMath.hexesInRange`: all hexes within cube distance `range` of
`center`, enumerated by the source's two nested loops. -/
def hexesInRange (center : Hex) (range : Nat) : List Hex :=
  (intRange (-(range : Int)) range).flatMap fun q =>
    (intRange (max (-(range : Int)) (-q - range)) (min (range : Int) (-q + range))).map
      fun r => ⟨center.q + q, center.r + r⟩

/-- `p` translated `n` times by the direction vector `dir` (used to state
where a push chain lands). -/
def scaled (p dir : Hex) (n : Nat) : Hex :=
  ⟨p.q + n * dir.q, p.r + n * dir.r⟩

end HexMath

/-! ## Pathfinding (A* and BFS, `src/unnamed/part_003`) -/

namespace Pathfinding

/-- `a < b` on `Option Nat` where `none` is `Infinity`
(`Infinity < Infinity` is `false`, as in JS). -/
def oLt : Option Nat → Option Nat → Bool
  | some a, some b => a < b
  | some _, none => true
  | none, _ => false

/-- Lookup in an association-list model of a JS `Map`.  A missing key reads
as `none`, which the callers treat as `Infinity` (`?? Infinity`). -/
def mget (m : List (Hex × Nat)) (k : Hex) : Option Nat :=
  (m.find? (fun p => p.1 = k)).map (·.2)

/-- The A* working state: the open set (insertion-ordered, no duplicates —
`Set` semantics), and the `cameFrom` / `gScore` / `fScore` maps. -/
structure AStarState where
  openSet : List Hex
  cameFrom : List (Hex × Hex)
  gScore : List (Hex × Nat)
  fScore : List (Hex × Nat)

/-- The open-set scan for the member with the lowest `fScore`
(`currentKey` starts `null`, `lowestF` starts `Infinity`; only a strictly
lower `f` replaces the current pick, so the first minimum wins). -/
def pickCurrent (openSet : List Hex) (fScore : List (Hex × Nat)) : Option Hex :=
  (openSet.foldl
    (fun (acc : Option Hex × Option Nat) key =>
      let f := mget fScore key
      if oLt f acc.2 then (some key, f) else acc)
    (none, none)).1

/-- One neighbor relaxation of the A* inner loop: skip non-walkable hexes,
and when `gScore(current) + 1` beats the neighbor's recorded `gScore`,
record the new scores (and parent) and add the neighbor to the open set if
absent.  `current` always has a recorded `gScore` when this runs; the
`none` fallback mirrors `?? Infinity`, under which the `<` test is false. -/
def relax (isWalkable : Hex → Bool) (goal current : Hex)
    (st : AStarState) (neighbor : Hex) : AStarState :=
  if !isWalkable neighbor then st
  else
    match mget st.gScore current with
    | none => st
    | some gCur =>
      let tentativeG := gCur + 1
      if oLt (some tentativeG) (mget st.gScore neighbor) then
        { openSet :=
            if neighbor ∈ st.openSet then st.openSet else st.openSet ++ [neighbor]
          cameFrom := (neighbor, current) :: st.cameFrom
          gScore := (neighbor, tentativeG) :: st.gScore
          fScore := (neighbor, tentativeG + HexMath.distance neighbor goal) :: st.fScore }
      else st

/-- `_reconstructPath`: follow the `cameFrom` chain back to the start,
prepending each hop.  The chain the main loop builds is acyclic and no
longer than the map itself, so the budget passed by `findPath` never runs
out; at `0` the hex itself is returned, the same as a missing parent. -/
def reconstructPath (cameFrom : List (Hex × Hex)) : Hex → Nat → List Hex
  | current, 0 => [current]
  | current, fuel + 1 =>
    match (cameFrom.find? (fun p => p.1 = current)).map (·.2) with
    | none => [current]
    | some prev => reconstructPath cameFrom prev fuel ++ [current]

/-- The A* `while (openSet.size > 0)` loop, with an explicit iteration
budget.  Exhausting the budget returns `[]`, the same value as the normal
open-set-empty exit.  The `pickCurrent = none` branch is unreachable (every
open-set member has an `fScore` recorded before insertion). -/
def loop (isWalkable : Hex → Bool) (goal : Hex) : Nat → AStarState → List Hex
  | 0, _ => []
  | fuel + 1, st =>
    if st.openSet.isEmpty then []
    else
      match pickCurrent st.openSet st.fScore with
      | none => []
      | some current =>
        if current = goal then
          reconstructPath st.cameFrom current (st.cameFrom.length + 1)
        else
          let st' := { st with openSet := st.openSet.erase current }
          let st'' := (HexMath.neighbors current).foldl (relax isWalkable goal current) st'
          loop isWalkable goal fuel st''

/-- `Pathfinding.findPath`: A* from `start` to `goal` over the walkability
predicate.  `start = goal` and an unwalkable goal are decided before the
loop runs. -/
def findPath (fuel : Nat) (start goal : Hex) (isWalkable : Hex → Bool) : List Hex :=
  if start = goal then [start]
  else if !isWalkable goal then []
  else
    loop isWalkable goal fuel
      { openSet := [start]
        cameFrom := []
        gScore := [(start, 0)]
        fScore := [(start, HexMath.distance start goal)] }

/-- The BFS `while (queue.length > 0)` loop of `getReachableHexes`, with an
explicit iteration budget (the visited set makes the real loop finite; the
budget-exhausted exit returns the entries collected so far, and the
theorems below hold for every budget).  `visited` is the key set of the JS
`visited` map — only membership is ever read. -/
def bfsLoop (isWalkable : Hex → Bool) (range : Nat) :
    Nat → List (Hex × Nat) → List Hex → List (Hex × Nat) → List (Hex × Nat)
  | 0, _, _, reachable => reachable
  | _ + 1, [], _, reachable => reachable
  | fuel + 1, (hex, dist) :: queue, visited, reachable =>
    let reachable' := if dist > 0 then reachable ++ [(hex, dist)] else reachable
    if dist < range then
      let step := (HexMath.neighbors hex).foldl
        (fun (qv : List (Hex × Nat) × List Hex) neighbor =>
          if neighbor ∉ qv.2 ∧ isWalkable neighbor then
            (qv.1 ++ [(neighbor, dist + 1)], qv.2 ++ [neighbor])
          else qv)
        (queue, visited)
      bfsLoop isWalkable range fuel step.1 step.2 reachable'
    else
      bfsLoop isWalkable range fuel queue visited reachable'

/-- `Pathfinding.getReachableHexes`: BFS up to `range` steps; returns every
visited hex except the start, paired with its step distance. -/
def getReachableHexes (fuel : Nat) (start : Hex) (range : Nat)
    (isWalkable : Hex → Bool) : List (Hex × Nat) :=
  bfsLoop isWalkable range fuel [(start, 0)] [start] []

/-- `goal` is connected to `start` by a (possibly empty) sequence of
neighbor steps onto walkable hexes — the notion of reachability `findPath`
is specified against. -/
inductive Reaches (isWalkable : Hex → Bool) (start : Hex) : Hex → Prop
  | refl : Reaches isWalkable start start
  | step {b c : Hex} : Reaches isWalkable start b → c ∈ HexMath.neighbors b →
      isWalkable c = true → Reaches isWalkable start c

end Pathfinding

/-! ## Data model (constants, cards, units, rooms, game state) -/

/-- `CONSTANTS.PHASES` (used both for the mission phase and the turn
sub-phase, as in the source). -/
inductive Phase
  | briefing
  | selection
  | execution
  | playing
  | victory
  | defeat
deriving DecidableEq, Repr

/-- `CONSTANTS.ACTION_TYPES`. -/
inductive ActionType
  | move
  | attack
  | heal
  | shield
  | buff
  | special
  | push
  | trap
deriving DecidableEq, Repr

/-- One half of a card.  Optional JS fields are `Option`s; `value` is the
magnitude (move distance, damage, heal amount, shield amount, push
distance). -/
structure Action where
  atype : ActionType
  value : Int
  range : Option Nat := none
  aoe : Bool := false
  aoeRadius : Option Nat := none
  stun : Bool := false
  push : Int := 0
  text : Option String := none
deriving DecidableEq, Repr

/-- A character ability card. -/
structure Card where
  id : String
  name : String := ""
  initiative : Nat := 0
  top : Action
  bottom : Action
deriving DecidableEq, Repr

/-- A player character (fields from `initializeCharacters` plus the
`burned` pool and `resting` flag added by the rest actions). -/
structure Character where
  id : String
  name : String := ""
  shortName : String := ""
  maxHealth : Int
  health : Int
  position : Hex
  hand : List Card := []
  discard : List Card := []
  burned : List Card := []
  shield : Int := 0
  resting : Bool := false
deriving DecidableEq, Repr

/-- An enemy unit (fields from `initializeEnemies`).  `etype` is the JS
`type` field (the archetype key); `ai` is the policy tag
(`"melee"` / `"ranged"`). -/
structure Enemy where
  id : String
  etype : String
  name : String := ""
  health : Int
  maxHealth : Int
  position : Hex
  move : Nat
  attack : Int
  range : Nat
  ai : String
  stunned : Bool := false
deriving DecidableEq, Repr

/-- An enemy spawn entry of a room template. -/
structure EnemySpawn where
  etype : String
  position : Hex
deriving DecidableEq, Repr

/-- A room layout (`GameData.rooms` entries). -/
structure Room where
  id : Nat
  name : String := ""
  width : Int
  height : Int
  startPositions : List Hex
  enemies : List EnemySpawn
  walls : List Hex := []
  artifactPosition : Option Hex := none
deriving DecidableEq, Repr

/-- The per-character selection record (`{ cardA, cardB }` plus the
lead-half flag). -/
structure Selection where
  cardA : Option Card := none
  cardB : Option Card := none
  useTopOfA : Bool := true
deriving DecidableEq, Repr

/-- The `turn` slice of the store state.  `turnOrder`, `currentTurnIndex`
and `currentAction` are omitted: no operation modelled below reads them. -/
structure TurnState where
  phase : Phase := Phase.selection
  selectedCards : List (String × Selection) := []
deriving DecidableEq, Repr

/-- The battle-state aggregate held by the store (the `ui` slice is
presentation-only and omitted). -/
structure GameState where
  phase : Phase := Phase.briefing
  currentRoom : Int := 1
  characters : List Character := []
  enemies : List Enemy := []
  turn : TurnState := {}
deriving DecidableEq, Repr

namespace CONSTANTS

def TOTAL_ROOMS : Int := 3

def CARDS_TO_PLAY : Nat := 2

def LONG_REST_HEAL : Int := 2

end CONSTANTS

namespace GameData

/-- Enemy archetype stat templates (`GameData.enemies`). -/
def enemyTemplate : String → Option (String × Int × Nat × Int × Nat × String)
  | "jaffa_warrior" => some ("Jaffa Warrior", 6, 2, 3, 1, "melee")
  | "jaffa_serpent_guard" => some ("Serpent Guard", 10, 3, 4, 2, "ranged")
  | _ => none

/-- `GameData.rooms`: the three room layouts (walls are empty in all
three; only room 3 carries an artifact hex). -/
def rooms : List Room :=
  [ { id := 1
      name := "Stargate Arrival"
      width := 7
      height := 7
      startPositions := [⟨0, 0⟩, ⟨1, 0⟩, ⟨0, 1⟩, ⟨1, 1⟩]
      enemies :=
        [ ⟨"jaffa_warrior", ⟨5, 3⟩⟩, ⟨"jaffa_warrior", ⟨4, 4⟩⟩,
          ⟨"jaffa_warrior", ⟨6, 3⟩⟩, ⟨"jaffa_warrior", ⟨5, 5⟩⟩ ]
      walls := [] },
    { id := 2
      name := "Temple Corridor"
      width := 8
      height := 6
      startPositions := [⟨0, 0⟩, ⟨1, 0⟩, ⟨0, 1⟩, ⟨1, 1⟩]
      enemies :=
        [ ⟨"jaffa_warrior", ⟨5, 2⟩⟩, ⟨"jaffa_warrior", ⟨6, 3⟩⟩,
          ⟨"jaffa_warrior", ⟨5, 4⟩⟩, ⟨"jaffa_warrior", ⟨7, 2⟩⟩,
          ⟨"jaffa_serpent_guard", ⟨6, 4⟩⟩ ]
      walls := [] },
    { id := 3
      name := "Artifact Chamber"
      width := 9
      height := 8
      startPositions := [⟨0, 0⟩, ⟨1, 0⟩, ⟨0, 1⟩, ⟨1, 1⟩]
      enemies :=
        [ ⟨"jaffa_warrior", ⟨6, 3⟩⟩, ⟨"jaffa_warrior", ⟨7, 4⟩⟩,
          ⟨"jaffa_warrior", ⟨6, 5⟩⟩, ⟨"jaffa_warrior", ⟨8, 4⟩⟩,
          ⟨"jaffa_serpent_guard", ⟨7, 6⟩⟩ ]
      artifactPosition := some ⟨7, 5⟩
      walls := [] } ]

end GameData

/-! ## Modifier deck (`src/js/modifierDeck.js`) -/

namespace ModifierDeck

/-- An attack modifier card: `mtype` is the JS `type` field
(`"add"` / `"multiply"` / `"null"`). -/
structure Modifier where
  value : Int
  mtype : String
  label : String
deriving DecidableEq, Repr

/-- `createStandardDeck`: the fixed 20-card composition. -/
def createStandardDeck : List Modifier :=
  List.replicate 6 ⟨0, "add", "+0"⟩ ++
  List.replicate 5 ⟨1, "add", "+1"⟩ ++
  List.replicate 5 ⟨-1, "add", "-1"⟩ ++
  [⟨2, "add", "+2"⟩, ⟨-2, "add", "-2"⟩, ⟨2, "multiply", "x2"⟩, ⟨0, "null", "MISS"⟩]

/-- A deck instance: the full card set and the mutable remaining draw pile.
`draw` pops from the **end** of `remaining` (JS `Array.pop`). -/
structure DeckState where
  cards : List Modifier
  remaining : List Modifier
  needsReshuffle : Bool := false
deriving DecidableEq, Repr

/-- `ModifierDeck.draw`.  The Fisher-Yates `shuffle` draws on
`Math.random`, so it is a parameter here (no claim depends on the
permutation).  A pop from an empty pile is JS `undefined` followed by a
thrown field access; that (unreachable for non-empty card sets) case
returns `none`.

Note the only reshuffle condition the code tests is
`remaining.length === 0`; the `needsReshuffle` flag is written (set by a
`x2` / `null` draw, cleared by a reshuffle) but never read. -/
def draw (shuffle : List Modifier → List Modifier) (d : DeckState) :
    Option Modifier × DeckState :=
  let d1 :=
    if d.remaining.isEmpty then
      { d with remaining := shuffle d.cards, needsReshuffle := false }
    else d
  match d1.remaining.getLast? with
  | none => (none, d1)
  | some modifier =>
    let d2 := { d1 with remaining := d1.remaining.dropLast }
    if modifier.mtype == "multiply" || modifier.mtype == "null" then
      (some modifier, { d2 with needsReshuffle := true })
    else
      (some modifier, d2)

end ModifierDeck

/-! ## Store actions (`src/js/game/core.js`)

Each store action is a function `GameState → GameState`; `setState` merges
replace whole top-level fields (arrays are replaced wholesale by the
store's deep merge). -/

/-- Mutation of the first list element satisfying `p` (the JS pattern
`const x = arr.find(...); x.field = ...` over a shallow array copy). -/
def updateFirst {α : Type} (p : α → Bool) (f : α → α) : List α → List α
  | [] => []
  | x :: xs => if p x then f x :: xs else x :: updateFirst p f xs

namespace Store

/-- `damageCharacter`: shield absorbs one-for-one, the remainder hits
health clamped at 0; a character at (or below) 0 health flips the mission
phase to Defeat.  A stale id is a silent no-op. -/
def damageCharacter (s : GameState) (characterId : String) (amount : Int) : GameState :=
  match s.characters.find? (fun c => c.id = characterId) with
  | none => s
  | some char =>
    let shieldAbsorb := min char.shield amount
    let newShield := char.shield - shieldAbsorb
    let remainingDamage := amount - shieldAbsorb
    let newHealth := max 0 (char.health - remainingDamage)
    let characters := updateFirst (fun c => c.id = characterId)
      (fun c => { c with shield := newShield, health := newHealth }) s.characters
    let s' := { s with characters := characters }
    if newHealth ≤ 0 then { s' with phase := Phase.defeat } else s'

/-- `damageEnemy`: subtract the damage; an enemy at (or below) 0 health is
filtered out of the enemy set, otherwise the mutated enemy is kept. -/
def damageEnemy (s : GameState) (enemyId : String) (amount : Int) : GameState :=
  match s.enemies.find? (fun e => e.id = enemyId) with
  | none => s
  | some enemy =>
    let newHealth := enemy.health - amount
    if newHealth ≤ 0 then
      { s with enemies := s.enemies.filter (fun e => ¬ e.id = enemyId) }
    else
      { s with enemies := (updateFirst (fun e => e.id = enemyId)
          (fun e => { e with health := newHealth }) s.enemies) }

/-- `stunEnemy`. -/
def stunEnemy (s : GameState) (enemyId : String) : GameState :=
  { s with enemies := s.enemies.map (fun e =>
      if e.id = enemyId then { e with stunned := true } else e) }

/-- `setPhase`. -/
def setPhase (s : GameState) (phase : Phase) : GameState :=
  { s with phase := phase }

/-- `clearCardSelections`: reset the selections and return the turn
sub-phase to Selection. -/
def clearCardSelections (s : GameState) : GameState :=
  { s with turn := { s.turn with selectedCards := [], phase := Phase.selection } }

/-- The per-character body of `discardUsedCards`: a character with no
selection is untouched; otherwise the selected cards move hand→discard. -/
def discardOne (selectedCards : List (String × Selection)) (char : Character) : Character :=
  match (selectedCards.find? (fun p => p.1 = char.id)).map (·.2) with
  | none => char
  | some selection =>
    let usedCardIds :=
      (match selection.cardA with | some c => [c.id] | none => []) ++
      (match selection.cardB with | some c => [c.id] | none => [])
    { char with
      hand := char.hand.filter (fun c => ¬ usedCardIds.contains c.id)
      discard := char.discard ++ char.hand.filter (fun c => usedCardIds.contains c.id) }

/-- `discardUsedCards`: move each character's two selected cards from hand
to discard. -/
def discardUsedCards (s : GameState) : GameState :=
  { s with characters := s.characters.map (discardOne s.turn.selectedCards) }

/-- `initializeEnemies`: fresh enemies from the room template, with ids
`enemy_0`, `enemy_1`, …  The archetype lookup is total on the shipped room
data, so the `filterMap` drops nothing. -/
def initializeEnemies (s : GameState) (roomIndex : Nat) : GameState :=
  match GameData.rooms.get? roomIndex with
  | none => s
  | some room =>
    let enemies := room.enemies.enum.filterMap fun p =>
      (GameData.enemyTemplate p.2.etype).map fun t =>
        { id := "enemy_" ++ toString p.1
          etype := p.2.etype
          name := t.1
          health := t.2.1
          maxHealth := t.2.1
          position := p.2.position
          move := t.2.2.1
          attack := t.2.2.2.1
          range := t.2.2.2.2.1
          ai := t.2.2.2.2.2
          stunned := false : Enemy }
    { s with enemies := enemies }

/-- `advanceRoom`: past the last room flips to Victory (dead code from
`endRound`, which only advances when below the last room); otherwise move
to the next room, reposition the characters on its start layout and respawn
its enemies.  A missing room or start position would throw in JS
(unreachable on the shipped data); modelled as a no-op. -/
def advanceRoom (s : GameState) : GameState :=
  let nextRoom := s.currentRoom + 1
  if nextRoom > CONSTANTS.TOTAL_ROOMS then { s with phase := Phase.victory }
  else
    match (if 1 ≤ nextRoom then GameData.rooms.get? (nextRoom - 1).toNat else none) with
    | none => s
    | some room =>
      let characters := s.characters.enum.map fun p =>
        { p.2 with position := (room.startPositions.get? p.1).getD p.2.position }
      initializeEnemies
        { s with currentRoom := nextRoom, characters := characters }
        (nextRoom - 1).toNat

end Store

/-! ## Combat resolver (`src/js/combat.js`) -/

/-- The report the push resolver emits (`unit:pushed` with either a
distance or a `blocked` flag). -/
inductive PushReport
  | success (distance : Nat)
  | blocked
deriving DecidableEq, Repr

/-- A target-set entry's unit (enemy or character, by requested target
type). -/
inductive TargetUnit
  | enemy (e : Enemy)
  | character (c : Character)
deriving DecidableEq, Repr

/-- The value `processAction` returns: an immediately-resolved effect or a
pending effect carrying its legal choice set. -/
inductive ActionResult
  | complete
  | movePending (reachableHexes : List (Hex × Nat)) (moveRange : Nat)
  | attackPending (targets : List (Hex × TargetUnit)) (damage : Int) (range : Nat)
      (stun : Bool) (aoe : Bool) (aoeRadius : Nat) (push : Int)
  | healPending (targets : List (Hex × Character)) (amount : Int) (range : Nat)
  | shieldPending (targets : List (Hex × Character)) (amount : Int)
  | pushPending (targets : List (Hex × TargetUnit)) (pushDistance : Int) (range : Nat)
deriving DecidableEq, Repr

namespace Combat

/-- JS `x || d` on an optional number: `0` is falsy, so both a missing and
a zero `range` give the default. -/
def jsOr (x : Option Nat) (dflt : Nat) : Nat :=
  match x with
  | none => dflt
  | some 0 => dflt
  | some n => n

/-- `Combat.getRoom`: `GameData.rooms[state.currentRoom - 1]`; an index
outside the table is JS `undefined` (`none` here), and every user of the
room would throw on it. -/
def getRoom (s : GameState) : Option Room :=
  if 1 ≤ s.currentRoom then GameData.rooms.get? (s.currentRoom - 1).toNat else none

/-- `Combat.isInBounds`. -/
def isInBounds (hex : Hex) (room : Room) : Bool :=
  0 ≤ hex.q ∧ hex.q < room.width ∧ 0 ≤ hex.r ∧ hex.r < room.height

/-- `Combat.isWalkable`: in bounds, not a wall, not occupied by any
character or enemy.  A missing room (which would throw in JS) reads as not
walkable. -/
def isWalkable (hex : Hex) (s : GameState) : Bool :=
  match getRoom s with
  | none => false
  | some room =>
    isInBounds hex room &&
    !(room.walls.any (fun w => w = hex)) &&
    !(s.characters.any (fun c => c.position = hex)) &&
    !(s.enemies.any (fun e => e.position = hex))

/-- `Combat.hasEnemy`. -/
def hasEnemy (hex : Hex) (s : GameState) : Bool :=
  s.enemies.any (fun e => e.position = hex)

/-- `Combat.hasCharacter`. -/
def hasCharacter (hex : Hex) (s : GameState) : Bool :=
  s.characters.any (fun c => c.position = hex)

/-- `Combat.getEnemyAt`. -/
def getEnemyAt (hex : Hex) (s : GameState) : Option Enemy :=
  s.enemies.find? (fun e => e.position = hex)

/-- `Combat.getCharacterAt`. -/
def getCharacterAt (hex : Hex) (s : GameState) : Option Character :=
  s.characters.find? (fun c => c.position = hex)

/-- `Combat.getReachableHexes` (movement): BFS over `Combat.isWalkable`. -/
def getReachableHexes (fuel : Nat) (unit : Character) (moveRange : Nat)
    (s : GameState) : List (Hex × Nat) :=
  Pathfinding.getReachableHexes fuel unit.position moveRange (fun hex => isWalkable hex s)

/-- `Combat.getAttackTargets`: hexes within range (excluding the
attacker's own hex) holding a unit of the requested class. -/
def getAttackTargets (unitPos : Hex) (range : Nat) (s : GameState)
    (targetType : String) : List (Hex × TargetUnit) :=
  (HexMath.hexesInRange unitPos range).filterMap fun hex =>
    if hex = unitPos then none
    else if targetType = "enemy" ∧ hasEnemy hex s then
      (getEnemyAt hex s).map fun e => (hex, TargetUnit.enemy e)
    else if targetType = "character" ∧ hasCharacter hex s then
      (getCharacterAt hex s).map fun c => (hex, TargetUnit.character c)
    else none

/-- `Combat.getHealTargets`: living allies strictly below max health and
within range. -/
def getHealTargets (unitPos : Hex) (range : Nat) (s : GameState) :
    List (Hex × Character) :=
  s.characters.filterMap fun char =>
    if char.health ≤ 0 then none
    else if char.maxHealth ≤ char.health then none
    else if HexMath.distance unitPos char.position ≤ range then
      some (char.position, char)
    else none

/-- `Combat.executeMove`: relocate the unit with the matching id (the unit
class is decided by membership of the id in the character set). -/
def executeMove (s : GameState) (unitId : String) (targetHex : Hex) : GameState :=
  if s.characters.any (fun c => c.id = unitId) then
    { s with characters := s.characters.map fun c =>
        if c.id = unitId then { c with position := targetHex } else c }
  else
    { s with enemies := s.enemies.map fun e =>
        if e.id = unitId then { e with position := targetHex } else e }

/-- `Combat.executeAttack`.  The target is passed by id together with the
health field of the caller's (possibly stale) target object: the enemy
branch decides the defeated / stun split from `target.health - damage`, not
from the store.  Event emissions are dropped (the character branch's
re-fetch of the target feeds only the event payload). -/
def executeAttack (s : GameState) (targetId : String) (targetHealth : Int)
    (damage : Int) (stun : Bool) : GameState :=
  let isTargetEnemy := s.enemies.any (fun e => e.id = targetId)
  if isTargetEnemy then
    let s' := Store.damageEnemy s targetId damage
    let newHealth := max 0 (targetHealth - damage)
    if newHealth ≤ 0 then s'
    else if stun then Store.stunEnemy s' targetId
    else s'
  else
    Store.damageCharacter s targetId damage

/-- `Combat.executeHeal`, as called: `state` is the snapshot the characters
array is computed from, `store` is the state the result is written into
(the two coincide except inside `processAction`'s AOE-heal loop, which
passes the same stale snapshot to every call). -/
def executeHeal (targetId : String) (amount : Int) (state store : GameState) : GameState :=
  { store with characters := state.characters.map fun c =>
      if c.id = targetId then
        { c with health := min c.maxHealth (c.health + amount) }
      else c }

/-- `Combat.executeShield`: additive, stacks with the existing shield. -/
def executeShield (targetId : String) (amount : Int) (s : GameState) : GameState :=
  { s with characters := s.characters.map fun c =>
      if c.id = targetId then { c with shield := c.shield + amount } else c }

/-- `Combat.clearShields`. -/
def clearShields (s : GameState) : GameState :=
  { s with characters := s.characters.map fun c => { c with shield := 0 } }

/-- One step-candidate check of the push loop: the next hex must be in
bounds, not a wall, and not occupied by any unit other than the target
itself.  The room is re-read each iteration; a missing room (a JS throw)
reads as blocked. -/
def pushStepFree (s : GameState) (targetId : String) (hex : Hex) : Bool :=
  match getRoom s with
  | none => false
  | some room =>
    isInBounds hex room &&
    !(room.walls.any (fun w => w = hex)) &&
    !(s.characters.any (fun c => ¬ c.id = targetId ∧ c.position = hex)) &&
    !(s.enemies.any (fun e => ¬ e.id = targetId ∧ e.position = hex))

/-- The `for (let i = 0; i < distance; i++)` push loop: step while the next
hex is free, counting the hexes actually moved. -/
def pushLoop (s : GameState) (targetId : String) (dir : Hex) :
    Nat → Hex → Nat → Hex × Nat
  | 0, pos, pushed => (pos, pushed)
  | k + 1, pos, pushed =>
    let nextPos := HexMath.add pos dir
    if pushStepFree s targetId nextPos then
      pushLoop s targetId dir k nextPos (pushed + 1)
    else (pos, pushed)

/-- `Combat.executePush`: snap the pusher→target direction to the best hex
direction, step the target up to `distance` hexes, and either relocate it
(success report with the distance actually moved) or leave the state
untouched (distinct blocked report). -/
def executePush (s : GameState) (pusherPos targetPos : Hex) (targetId : String)
    (distance : Nat) : GameState × Nat × PushReport :=
  let dir := HexMath.getDirection pusherPos targetPos
  let result := pushLoop s targetId dir distance targetPos 0
  let currentPos := result.1
  let pushedDistance := result.2
  if pushedDistance > 0 then
    let isTargetEnemy := s.enemies.any (fun e => e.id = targetId)
    let s' :=
      if isTargetEnemy then
        { s with enemies := s.enemies.map fun e =>
            if e.id = targetId then { e with position := currentPos } else e }
      else
        { s with characters := s.characters.map fun c =>
            if c.id = targetId then { c with position := currentPos } else c }
    (s', pushedDistance, PushReport.success pushedDistance)
  else
    (s, pushedDistance, PushReport.blocked)

/-- JS `action.text?.includes('self')`. -/
def textIncludesSelf (text : Option String) : Bool :=
  match text with
  | none => false
  | some t => (t.splitOn "self").length > 1

/-- `Combat.processAction`: dispatch a card half to an immediate effect
(`complete`) or a pending effect carrying its legal choice set.  The
AOE-heal branch calls `executeHeal` once per eligible character, passing
every call the same `state` snapshot while the store advances — so each
call's write is computed from the pre-loop characters array. -/
def processAction (fuel : Nat) (action : Action) (unit : Character)
    (s : GameState) : ActionResult × GameState :=
  match action.atype with
  | ActionType.move =>
    (ActionResult.movePending
      (getReachableHexes fuel unit (action.value.toNat) s) action.value.toNat, s)
  | ActionType.attack =>
    let range := jsOr action.range 1
    let targets := getAttackTargets unit.position range s "enemy"
    (ActionResult.attackPending targets action.value range action.stun action.aoe
      (jsOr action.aoeRadius 1) action.push, s)
  | ActionType.heal =>
    let range := jsOr action.range 0
    if action.aoe then
      let s' := s.characters.foldl
        (fun store char =>
          if 0 < char.health ∧ char.health < char.maxHealth then
            executeHeal char.id action.value s store
          else store)
        s
      (ActionResult.complete, s')
    else
      let targets := getHealTargets unit.position range s
      if range = 0 || textIncludesSelf action.text then
        (ActionResult.complete, executeHeal unit.id action.value s s)
      else
        (ActionResult.healPending targets action.value range, s)
  | ActionType.shield =>
    if textIncludesSelf action.text then
      (ActionResult.complete, executeShield unit.id action.value s)
    else
      let targets := (s.characters.filter (fun c => 0 < c.health)).map
        fun c => (c.position, c)
      (ActionResult.shieldPending targets action.value, s)
  | ActionType.buff => (ActionResult.complete, s)
  | ActionType.special => (ActionResult.complete, s)
  | ActionType.push =>
    let range := jsOr action.range 1
    let targets := getAttackTargets unit.position range s "enemy"
    (ActionResult.pushPending targets action.value range, s)
  | ActionType.trap => (ActionResult.complete, s)

end Combat

/-! ## Enemy AI (`src/js/enemyAI.js`) -/

/-- The decision an enemy turn executes. -/
inductive EnemyAction
  | wait
  | attack (target : Character)
  | move (position : Hex)
  | moveAndAttack (position : Hex) (target : Character)
deriving DecidableEq, Repr

namespace EnemyAI

/-- `EnemyAI.isWalkable`: the AI's own copy of the walkability predicate
(bounds, walls, both unit sets), reading the room table directly. -/
def isWalkable (hex : Hex) (s : GameState) : Bool :=
  match Combat.getRoom s with
  | none => false
  | some room =>
    !(hex.q < 0 ∨ room.width ≤ hex.q ∨ hex.r < 0 ∨ room.height ≤ hex.r) &&
    !(room.walls.any (fun w => w = hex)) &&
    !(s.characters.any (fun c => c.position = hex)) &&
    !(s.enemies.any (fun e => e.position = hex))

/-- `findNearestTarget`: nearest living character by hex distance;
`nearestDistance` starts at `Infinity` (`none`), only a strictly smaller
distance replaces the pick, so ties keep the earlier character. -/
def findNearestTarget (enemy : Enemy) (characters : List Character) : Option Character :=
  (characters.foldl
    (fun (acc : Option Character × Option Nat) char =>
      if char.health ≤ 0 then acc
      else
        let distance := HexMath.distance enemy.position char.position
        if Pathfinding.oLt (some distance) acc.2 then (some char, some distance)
        else acc)
    (none, none)).1

/-- `findBestMoveToward`: the reachable hex (within the move allowance)
closest to the target; `null` when nothing is reachable.  Only a strictly
smaller distance replaces the pick, so the earliest minimum wins. -/
def findBestMoveToward (fuel : Nat) (enemy : Enemy) (targetPos : Hex)
    (moveRange : Nat) (s : GameState) : Option Hex :=
  let reachable := Pathfinding.getReachableHexes fuel enemy.position moveRange
    (fun hex => isWalkable hex s)
  if reachable.isEmpty then none
  else
    (reachable.foldl
      (fun (acc : Option Hex × Option Nat) p =>
        let distance := HexMath.distance p.1 targetPos
        if Pathfinding.oLt (some distance) acc.2 then (some p.1, some distance)
        else acc)
      (none, none)).1

/-- `findRetreatPosition`: the reachable hex maximizing distance from the
target plus a bonus for exact optimal range (+10) or merely-in-range
non-adjacent positions (+5); only a strictly larger score replaces the
pick. -/
def findRetreatPosition (fuel : Nat) (enemy : Enemy) (target : Character)
    (s : GameState) : Option Hex :=
  let reachable := Pathfinding.getReachableHexes fuel enemy.position enemy.move
    (fun hex => isWalkable hex s)
  if reachable.isEmpty then none
  else
    (reachable.foldl
      (fun (acc : Option Hex × Option Nat) p =>
        let distFromTarget := HexMath.distance p.1 target.position
        let score :=
          if distFromTarget = enemy.range then distFromTarget + 10
          else if distFromTarget ≤ enemy.range ∧ distFromTarget > 1 then distFromTarget + 5
          else distFromTarget
        match acc.2 with
        | none => (some p.1, some score)
        | some bestScore =>
          if score > bestScore then (some p.1, some score) else acc)
      (none, none)).1

/-- `decideMeleeAction`: attack in place when in range; otherwise move to
the best reachable hex (packaged with an attack when it lands in range);
wait when nothing is reachable. -/
def decideMeleeAction (fuel : Nat) (enemy : Enemy) (target : Character)
    (distance : Nat) (s : GameState) : EnemyAction :=
  if distance ≤ enemy.range then EnemyAction.attack target
  else
    match findBestMoveToward fuel enemy target.position enemy.move s with
    | some moveTarget =>
      let newDistance := HexMath.distance moveTarget target.position
      if newDistance ≤ enemy.range then EnemyAction.moveAndAttack moveTarget target
      else EnemyAction.move moveTarget
    | none => EnemyAction.wait

/-- `decideRangedAction`: attack from distance inside `(1, range]`; retreat
when adjacent (attacking anyway when no retreat exists); close in when out
of range, attacking when the destination lands in range. -/
def decideRangedAction (fuel : Nat) (enemy : Enemy) (target : Character)
    (distance : Nat) (s : GameState) : EnemyAction :=
  if distance ≤ enemy.range ∧ distance > 1 then EnemyAction.attack target
  else if distance = 1 then
    match findRetreatPosition fuel enemy target s with
    | some retreatPos =>
      let newDistance := HexMath.distance retreatPos target.position
      if newDistance ≤ enemy.range then EnemyAction.moveAndAttack retreatPos target
      else EnemyAction.move retreatPos
    | none => EnemyAction.attack target
  else if distance > enemy.range then
    match findBestMoveToward fuel enemy target.position enemy.move s with
    | some moveTarget =>
      let newDistance := HexMath.distance moveTarget target.position
      if newDistance ≤ enemy.range then EnemyAction.moveAndAttack moveTarget target
      else EnemyAction.move moveTarget
    | none => EnemyAction.wait
  else EnemyAction.wait

/-- `EnemyAI.decideAction`: a stunned enemy (or one with no living target)
waits; otherwise dispatch on the archetype policy tag. -/
def decideAction (fuel : Nat) (enemy : Enemy) (s : GameState) : EnemyAction :=
  if enemy.stunned then EnemyAction.wait
  else
    match findNearestTarget enemy s.characters with
    | none => EnemyAction.wait
    | some target =>
      let distance := HexMath.distance enemy.position target.position
      if enemy.ai = "melee" then decideMeleeAction fuel enemy target distance s
      else if enemy.ai = "ranged" then decideRangedAction fuel enemy target distance s
      else EnemyAction.wait

end EnemyAI

/-! ## Round-end orchestration (`src/js/game/turns.js`) -/

namespace Game

/-- `checkArtifactPickup`: after a character move lands on `hex`, trigger
Victory exactly when the mission is in the final room with no enemies left
and `hex` is the room's artifact hex.  Returns whether victory was
triggered, with the resulting state. -/
def checkArtifactPickup (s : GameState) (hex : Hex) : Bool × GameState :=
  if s.currentRoom ≠ CONSTANTS.TOTAL_ROOMS ∨ s.enemies.length > 0 then (false, s)
  else
    match (GameData.rooms.get? (CONSTANTS.TOTAL_ROOMS - 1).toNat).bind Room.artifactPosition with
    | some artifactPos =>
      if hex = artifactPos then (true, Store.setPhase s Phase.victory)
      else (false, s)
    | none => (false, s)

/-- The first three steps of `endRound`: discard the used cards, clear
shields, clear resting flags. -/
def roundCleanup (s : GameState) : GameState :=
  let s1 := Store.discardUsedCards s
  let s2 := Combat.clearShields s1
  { s2 with characters := s2.characters.map (fun (c : Character) => { c with resting := false }) }

/-- `endRound`: discard the used cards, clear shields and resting flags,
then evaluate: with no enemies left, advance below the final room, and in
the final room flip to Victory exactly when a living character already
stands on the artifact hex (otherwise stay and wait for a move onto it);
with enemies left, fail the mission when no character has either two cards
in hand or a non-empty discard, and otherwise return to the selection
phase.  In the final room the artifact hex is always defined; a missing one
would throw in JS (modelled as the no-victory branch). -/
def endRound (s : GameState) : GameState :=
  let s3 := roundCleanup s
  if s3.enemies.isEmpty then
    if s3.currentRoom < CONSTANTS.TOTAL_ROOMS then
      Store.clearCardSelections (Store.advanceRoom s3)
    else
      match (GameData.rooms.get? (CONSTANTS.TOTAL_ROOMS - 1).toNat).bind Room.artifactPosition with
      | some artifactPos =>
        if s3.characters.any (fun c => 0 < c.health ∧ c.position = artifactPos) then
          Store.setPhase s3 Phase.victory
        else
          Store.clearCardSelections s3
      | none => Store.clearCardSelections s3
  else
    let canContinue := s3.characters.any fun c =>
      CONSTANTS.CARDS_TO_PLAY ≤ c.hand.length ∨ 0 < c.discard.length
    if ¬ canContinue then Store.setPhase s3 Phase.defeat
    else Store.clearCardSelections s3

end Game

/-! ## Helper lemmas -/

/-- `updateFirst` is the identity when nothing matches. -/
theorem updateFirst_of_find?_eq_none {α : Type} (p : α → Bool) (f : α → α)
    (l : List α) (h : l.find? p = none) : updateFirst p f l = l := by
  induction l with
  | nil => rfl
  | cons x xs ih =>
    rw [List.find?_cons] at h
    by_cases hx : p x
    · simp [hx] at h
    · simp only [hx, if_neg, Bool.false_eq_true, ite_false] at h
      simp [updateFirst, hx, ih h]

/-- `find?` after `updateFirst` sees the updated element, provided the
update does not change whether the element matches. -/
theorem find?_updateFirst {α : Type} (p : α → Bool) (f : α → α)
    (hp : ∀ x, p (f x) = p x) (l : List α) :
    (updateFirst p f l).find? p = (l.find? p).map f := by
  induction l with
  | nil => rfl
  | cons x xs ih =>
    by_cases hx : p x
    · simp [updateFirst, hx, List.find?_cons, hp]
    · simp [updateFirst, hx, List.find?_cons, ih]

/-- Every element of `updateFirst p f l` is an element of `l` or the image
under `f` of the first match of `p` in `l`. -/
theorem mem_updateFirst {α : Type} (p : α → Bool) (f : α → α) (a : α)
    (l : List α) (hfind : l.find? p = some a) :
    ∀ y ∈ updateFirst p f l, y ∈ l ∨ y = f a := by
  induction l with
  | nil => simp [updateFirst]
  | cons x xs ih =>
    rw [List.find?_cons] at hfind
    by_cases hx : p x
    · simp only [hx, if_pos] at hfind
      obtain rfl : x = a := by simpa using hfind
      intro y hy
      simp only [updateFirst, hx, if_pos] at hy
      rcases List.mem_cons.mp hy with h | h
      · right; exact h
      · left; exact List.mem_cons_of_mem _ h
    · simp only [hx] at hfind
      intro y hy
      simp only [updateFirst, hx] at hy
      rcases List.mem_cons.mp hy with h | h
      · left; simp [h]
      · rcases ih hfind y h with h' | h'
        · left; exact List.mem_cons_of_mem _ h'
        · right; exact h'

/-! ## Claim C4 — modifier deck reshuffle behaviour -/

/-- C4.  The claim says a drawn `x2` (multiply) or `MISS` (null) card
forces a reshuffle of the full card set before the next draw call.  The
code only sets the `needsReshuffle` flag on such a draw and never reads it:
its reshuffle condition is solely an empty remaining pile.  Evaluating the
code at the failing input: a deck whose remaining pile is `[+0, x2]` (the
pile is popped from the end).  The first draw yields the `x2` card and sets
the flag; the claim then demands that the next draw be preceded by a
reshuffle of the full 20-card set (leaving 19 cards), but the code's second
draw simply pops the `+0` card from the 1-card pile, leaving an empty pile,
an untouched 20-card set and the flag still set — no reshuffle occurred. -/
theorem claim4_draw_after_crit_does_not_reshuffle :
    (ModifierDeck.draw id
        { cards := ModifierDeck.createStandardDeck
          remaining := [⟨0, "add", "+0"⟩, ⟨2, "multiply", "x2"⟩]
          needsReshuffle := false }).1 = some ⟨2, "multiply", "x2"⟩
    ∧ (ModifierDeck.draw id
        { cards := ModifierDeck.createStandardDeck
          remaining := [⟨0, "add", "+0"⟩, ⟨2, "multiply", "x2"⟩]
          needsReshuffle := false }).2 =
      { cards := ModifierDeck.createStandardDeck
        remaining := [⟨0, "add", "+0"⟩]
        needsReshuffle := true }
    ∧ (ModifierDeck.draw id
        { cards := ModifierDeck.createStandardDeck
          remaining := [⟨0, "add", "+0"⟩]
          needsReshuffle := true }) =
      (some ⟨0, "add", "+0"⟩,
        { cards := ModifierDeck.createStandardDeck
          remaining := []
          needsReshuffle := true }) := by
  refine ⟨?_, ?_, ?_⟩ <;> rfl

/-! ## Claim C10 — AOE heal heals only the last eligible ally -/

/-- C10.  The claim (matching the code's own `heal all allies` comment)
says an aoe-flagged heal heals **every** living, below-max character.  The
loop does call `executeHeal` once per eligible character, but every call
receives the same pre-loop `state` snapshot while the store advances, and
each call replaces the store's whole characters array with one computed
from that stale snapshot — so every write erases the previous call's heal
and only the last eligible character's heal survives.  Failing input: Jack
at 5/10 and Sam at 4/8, AOE heal 2.  The claim demands healths `[7, 6]`;
the code produces `[5, 6]` (Jack's heal is lost), returning `complete`. -/
theorem claim10_aoe_heal_overwrites_earlier_heals :
    (Combat.processAction 1 { atype := ActionType.heal, value := 2, aoe := true, range := some 2 }
        { id := "jack", maxHealth := 10, health := 5, position := ⟨0, 0⟩ }
        { phase := Phase.playing
          currentRoom := 1
          characters :=
            [ { id := "jack", maxHealth := 10, health := 5, position := ⟨0, 0⟩ },
              { id := "sam", maxHealth := 8, health := 4, position := ⟨1, 0⟩ } ]
          enemies := [] }).1 = ActionResult.complete
    ∧ ((Combat.processAction 1 { atype := ActionType.heal, value := 2, aoe := true, range := some 2 }
        { id := "jack", maxHealth := 10, health := 5, position := ⟨0, 0⟩ }
        { phase := Phase.playing
          currentRoom := 1
          characters :=
            [ { id := "jack", maxHealth := 10, health := 5, position := ⟨0, 0⟩ },
              { id := "sam", maxHealth := 8, health := 4, position := ⟨1, 0⟩ } ]
          enemies := [] }).2.characters.map Character.health) = [5, 6] := by
  exact ⟨rfl, by decide⟩

/-! ## Claim C1 — shield absorption on attacks against characters -/

/-- C1, counterexample.  The claim says the health actually lost equals
`max(0, damage - shieldBefore)`.  Health is clamped at 0, so an overkill
attack loses less: Jack at health 1, shield 0, hit for 5 — the health lost
is `1 - 0 = 1`, not `max(0, 5 - 0) = 5`. -/
theorem claim1_counterexample :
    ((Combat.executeAttack
        { phase := Phase.playing
          currentRoom := 1
          characters := [{ id := "jack", maxHealth := 10, health := 1, shield := 0, position := ⟨0, 0⟩ }]
          enemies := [] }
        "jack" 1 5 false).characters.map Character.health) = [0]
    ∧ ((1 : Int) - 0) ≠ max 0 (5 - 0) := by
  exact ⟨by decide, by decide⟩

/-- C1, amended.  For an attack executed against a character (`targetId`
resolves to a character and not to any enemy): the shield absorbs damage
one-for-one before health, i.e. the new shield is
`max(0, shieldBefore - damage)` and the new health is
`max(0, healthBefore - max(0, damage - shieldBefore))`; hence the health
actually lost is `min(healthBefore, max(0, damage - shieldBefore))` — the
claim's `max(0, damage - shieldBefore)` capped by the available health —
and the shield never goes negative nor the health below 0 (nor above its
previous value). -/
theorem claim1_amended_shield_absorption
    (s : GameState) (targetId : String) (targetHealth damage : Int) (stun : Bool)
    (char : Character)
    (hfind : s.characters.find? (fun c => c.id = targetId) = some char)
    (henemy : s.enemies.any (fun e => e.id = targetId) = false)
    (hhealth : 0 ≤ char.health) :
    (((Combat.executeAttack s targetId targetHealth damage stun).characters.find?
        (fun c => c.id = targetId)).map (fun c => (c.shield, c.health)))
      = some (max 0 (char.shield - damage),
              max 0 (char.health - max 0 (damage - char.shield)))
    ∧ char.health - max 0 (char.health - max 0 (damage - char.shield))
        = min char.health (max 0 (damage - char.shield))
    ∧ 0 ≤ max 0 (char.shield - damage)
    ∧ 0 ≤ max 0 (char.health - max 0 (damage - char.shield))
    ∧ max 0 (char.health - max 0 (damage - char.shield)) ≤ char.health := by
  refine ⟨?_, by omega, by omega, by omega, by omega⟩
  simp only [Combat.executeAttack, henemy, Bool.false_eq_true, if_false]
  simp only [Store.damageCharacter, hfind]
  have hp : ∀ x : Character,
      ((fun c => (c.id = targetId : Bool))
        ({ x with
            shield := char.shield - min char.shield damage
            health := max 0 (char.health - (damage - min char.shield damage)) } : Character))
      = (fun c => (c.id = targetId : Bool)) x := fun _ => rfl
  have hfu := find?_updateFirst (fun c => (c.id = targetId : Bool))
    (fun x => { x with
        shield := char.shield - min char.shield damage
        health := max 0 (char.health - (damage - min char.shield damage)) }) hp s.characters
  have h1 : char.shield - min char.shield damage = max 0 (char.shield - damage) := by omega
  have h2 : damage - min char.shield damage = max 0 (damage - char.shield) := by omega
  split
  · rw [hfu, hfind]
    simp [h1, h2]
  · rw [hfu, hfind]
    simp [h1, h2]

/-- C1, witness for the amended theorem: Jack at health 5, shield 2, hit
for 3 — new shield `max 0 (2-3)`, new health `max 0 (5 - max 0 (3-2))`. -/
theorem claim1_amended_witness :
    (((Combat.executeAttack
        { phase := Phase.playing
          currentRoom := 1
          characters := [{ id := "jack", maxHealth := 10, health := 5, shield := 2, position := ⟨0, 0⟩ }]
          enemies := [] }
        "jack" 5 3 false).characters.find?
        (fun c => c.id = "jack")).map (fun c => (c.shield, c.health)))
      = some (max 0 ((2 : Int) - 3), max 0 ((5 : Int) - max 0 (3 - 2)))
    ∧ (5 : Int) - max 0 ((5 : Int) - max 0 (3 - 2)) = min (5 : Int) (max 0 (3 - 2)) := by
  have h := claim1_amended_shield_absorption
    { phase := Phase.playing
      currentRoom := 1
      characters := [{ id := "jack", maxHealth := 10, health := 5, shield := 2, position := ⟨0, 0⟩ }]
      enemies := [] }
    "jack" 5 3 false
    { id := "jack", maxHealth := 10, health := 5, shield := 2, position := ⟨0, 0⟩ }
    (by decide) (by decide) (by decide)
  exact ⟨h.1, h.2.1⟩

/-! ## Claim C3 — round end with enemies remaining -/

/-- C3, counterexample.  The claim says that when enemies remain and no
character has ≥2 cards in hand, the mission fails immediately (Defeat).
The code's check also lets a character with a non-empty discard pile keep
the mission alive (they can rest to recover cards): with one character
holding 1 card in hand and 1 in discard and an enemy alive, no character
has ≥2 cards in hand, yet the round proceeds (phase stays Playing, turn
returns to Selection) instead of Defeat. -/
theorem claim3_counterexample :
    (Game.endRound
      { phase := Phase.playing
        currentRoom := 1
        characters :=
          [ { id := "jack", maxHealth := 10, health := 10, position := ⟨0, 0⟩
              hand := [{ id := "c1", top := { atype := ActionType.move, value := 2 },
                         bottom := { atype := ActionType.attack, value := 2 } }]
              discard := [{ id := "c2", top := { atype := ActionType.move, value := 3 },
                            bottom := { atype := ActionType.attack, value := 3 } }] } ]
        enemies :=
          [ { id := "enemy_0", etype := "jaffa_warrior", health := 6, maxHealth := 6
              position := ⟨5, 3⟩, move := 2, attack := 3, range := 1, ai := "melee" } ] }).phase
      = Phase.playing
    ∧ (List.all
        [ ({ id := "jack", maxHealth := 10, health := 10, position := ⟨0, 0⟩
             hand := [{ id := "c1", top := { atype := ActionType.move, value := 2 },
                        bottom := { atype := ActionType.attack, value := 2 } }]
             discard := [{ id := "c2", top := { atype := ActionType.move, value := 3 },
                           bottom := { atype := ActionType.attack, value := 3 } }] } : Character) ]
        (fun c => c.hand.length < CONSTANTS.CARDS_TO_PLAY)) = true
    ∧ Phase.playing ≠ Phase.defeat := by
  exact ⟨by decide, by decide, by decide⟩

/-- C3, amended.  At round end with enemies remaining, the mission fails
immediately (terminal Defeat phase) exactly when no character has either
≥2 cards in hand or a non-empty discard pile (post-discard of this round's
used cards); otherwise the phase is untouched and the round returns to a
new selection phase. -/
theorem claim3_amended_endRound_continue_check (s : GameState) (h : ¬ s.enemies = []) :
    ((Game.endRound s).phase =
      (if (Store.discardUsedCards s).characters.any
          (fun c => CONSTANTS.CARDS_TO_PLAY ≤ c.hand.length ∨ 0 < c.discard.length)
        then s.phase else Phase.defeat))
    ∧ ((Store.discardUsedCards s).characters.any
          (fun c => CONSTANTS.CARDS_TO_PLAY ≤ c.hand.length ∨ 0 < c.discard.length) = true →
        (Game.endRound s).turn.phase = Phase.selection) := by
  have he : (Game.roundCleanup s).enemies.isEmpty = false := by
    show s.enemies.isEmpty = false
    cases hs : s.enemies with
    | nil => exact absurd hs h
    | cons a l => rfl
  have hany : (Game.roundCleanup s).characters.any
        (fun c => CONSTANTS.CARDS_TO_PLAY ≤ c.hand.length ∨ 0 < c.discard.length)
      = (Store.discardUsedCards s).characters.any
        (fun c => CONSTANTS.CARDS_TO_PLAY ≤ c.hand.length ∨ 0 < c.discard.length) := by
    show (((Store.discardUsedCards s).characters.map
        (fun (c : Character) => ({ c with shield := 0 } : Character))).map
        (fun (c : Character) => ({ c with resting := false } : Character))).any _ = _
    rw [List.any_map, List.any_map]
    rfl
  have hphase : (Game.roundCleanup s).phase = s.phase := rfl
  have hturn : (Game.roundCleanup s).turn = s.turn := rfl
  simp only [Game.endRound, he, Bool.false_eq_true, if_false, hany]
  by_cases hc : (Store.discardUsedCards s).characters.any
      (fun c => CONSTANTS.CARDS_TO_PLAY ≤ c.hand.length ∨ 0 < c.discard.length) = true
  · simp only [hc, not_true, if_pos, if_true, ite_true, if_neg, not_true_eq_false, ite_false]
    exact ⟨hphase, fun _ => rfl⟩
  · simp only [Bool.not_eq_true] at hc
    simp only [hc, Bool.false_eq_true, not_false_eq_true, ite_true, ite_false]
    exact ⟨rfl, fun hcontra => hcontra.elim⟩

/-- C3, witness for the amended theorem: one enemy alive, one character
with two cards in hand and nothing selected — the round survives
(`phase` stays Playing) and returns to Selection. -/
theorem claim3_amended_witness :
    ((Game.endRound
        { phase := Phase.playing
          currentRoom := 1
          characters :=
            [ { id := "jack", maxHealth := 10, health := 10, position := ⟨0, 0⟩
                hand := [{ id := "c1", top := { atype := ActionType.move, value := 2 },
                           bottom := { atype := ActionType.attack, value := 2 } },
                         { id := "c2", top := { atype := ActionType.move, value := 3 },
                           bottom := { atype := ActionType.attack, value := 3 } }] } ]
          enemies :=
            [ { id := "enemy_0", etype := "jaffa_warrior", health := 6, maxHealth := 6
                position := ⟨5, 3⟩, move := 2, attack := 3, range := 1, ai := "melee" } ] }).phase
      = (if (Store.discardUsedCards
          { phase := Phase.playing
            currentRoom := 1
            characters :=
              [ { id := "jack", maxHealth := 10, health := 10, position := ⟨0, 0⟩
                  hand := [{ id := "c1", top := { atype := ActionType.move, value := 2 },
                             bottom := { atype := ActionType.attack, value := 2 } },
                           { id := "c2", top := { atype := ActionType.move, value := 3 },
                             bottom := { atype := ActionType.attack, value := 3 } }] } ]
            enemies :=
              [ { id := "enemy_0", etype := "jaffa_warrior", health := 6, maxHealth := 6
                  position := ⟨5, 3⟩, move := 2, attack := 3, range := 1, ai := "melee" } ] }).characters.any
            (fun c => CONSTANTS.CARDS_TO_PLAY ≤ c.hand.length ∨ 0 < c.discard.length)
        then Phase.playing else Phase.defeat)) := by
  exact (claim3_amended_endRound_continue_check _ (by decide)).1

/-! ## Claim C2 — final-room victory requires the artifact hex -/

/-- `discardOne` only moves cards between hand and discard: health is
untouched. -/
theorem discardOne_health (sel : List (String × Selection)) (c : Character) :
    (Store.discardOne sel c).health = c.health := by
  unfold Store.discardOne
  cases (sel.find? (fun p => p.1 = c.id)).map (fun x => x.2) <;> rfl

/-- `discardOne` leaves the position untouched. -/
theorem discardOne_position (sel : List (String × Selection)) (c : Character) :
    (Store.discardOne sel c).position = c.position := by
  unfold Store.discardOne
  cases (sel.find? (fun p => p.1 = c.id)).map (fun x => x.2) <;> rfl

/-- The round-end cleanup (discard, shield clear, resting clear) does not
change which characters are alive on a given hex. -/
theorem roundCleanup_any_artifact (s : GameState) (ap : Hex) :
    (Game.roundCleanup s).characters.any (fun c => 0 < c.health ∧ c.position = ap)
    = s.characters.any (fun c => 0 < c.health ∧ c.position = ap) := by
  show (((s.characters.map (Store.discardOne s.turn.selectedCards)).map
      (fun (c : Character) => ({ c with shield := 0 } : Character))).map
      (fun (c : Character) => ({ c with resting := false } : Character))).any
      (fun c => 0 < c.health ∧ c.position = ap) = _
  rw [List.any_map, List.any_map, List.any_map]
  congr 1
  funext c
  simp only [Function.comp, discardOne_health, discardOne_position]

/-- C2.  In the final room (room 3) with every enemy defeated and the
mission still in the Playing phase: `endRound` flips the phase to Victory
exactly when some living character already stands on the room's artifact
hex `(7,5)` (otherwise the phase stays Playing); and a subsequent character
move onto hex `hex` triggers victory through `checkArtifactPickup` exactly
when `hex` is that artifact hex — so Victory is never reached from the
final room without the artifact condition. -/
theorem claim2_final_room_artifact_victory (s : GameState)
    (hphase : s.phase = Phase.playing)
    (hroom : s.currentRoom = 3)
    (henemies : s.enemies = []) :
    ((Game.endRound s).phase =
      (if s.characters.any (fun c => 0 < c.health ∧ c.position = (⟨7, 5⟩ : Hex))
        then Phase.victory else Phase.playing))
    ∧ (∀ hex : Hex,
        ((Game.checkArtifactPickup s hex).1 = true ↔ hex = (⟨7, 5⟩ : Hex))
        ∧ ((Game.checkArtifactPickup s hex).2.phase =
            (if hex = (⟨7, 5⟩ : Hex) then Phase.victory else Phase.playing))) := by
  have hene3 : (Game.roundCleanup s).enemies.isEmpty = true := by
    show s.enemies.isEmpty = true
    rw [henemies]
    rfl
  have hcr : (Game.roundCleanup s).currentRoom = (3 : Int) := hroom
  have hart : (GameData.rooms.get? (CONSTANTS.TOTAL_ROOMS - 1).toNat).bind Room.artifactPosition
      = some (⟨7, 5⟩ : Hex) := rfl
  constructor
  · simp only [Game.endRound, hene3, if_true, ite_true, hcr, hart]
    have hlt : ¬ ((3 : Int) < CONSTANTS.TOTAL_ROOMS) := by decide
    rw [if_neg hlt]
    rw [roundCleanup_any_artifact s ⟨7, 5⟩]
    by_cases hany : s.characters.any (fun c => 0 < c.health ∧ c.position = (⟨7, 5⟩ : Hex)) = true
    · rw [if_pos hany, if_pos hany]
      rfl
    · rw [if_neg hany, if_neg hany]
      show (Game.roundCleanup s).phase = Phase.playing
      show s.phase = Phase.playing
      exact hphase
  · intro hex
    have hcond : ¬ (s.currentRoom ≠ CONSTANTS.TOTAL_ROOMS ∨ s.enemies.length > 0) := by
      rw [hroom, henemies]
      decide
    constructor
    · simp only [Game.checkArtifactPickup, hcond, if_neg, ite_false, hart, not_false_eq_true]
      by_cases hhex : hex = (⟨7, 5⟩ : Hex)
      · simp [hhex]
      · simp [hhex]
    · simp only [Game.checkArtifactPickup, hcond, if_neg, ite_false, hart, not_false_eq_true]
      by_cases hhex : hex = (⟨7, 5⟩ : Hex)
      · simp [hhex, Store.setPhase]
      · simp only [hhex, ite_false, if_neg, not_false_eq_true]
        exact hphase

/-- C2, witness: in room 3 with no enemies and Jack alive on `(7,5)`,
`endRound` declares Victory; and `checkArtifactPickup` on hex `(7,5)`
reports a pickup. -/
theorem claim2_witness :
    ((Game.endRound
        { phase := Phase.playing
          currentRoom := 3
          characters := [{ id := "jack", maxHealth := 10, health := 10, position := ⟨7, 5⟩ }]
          enemies := [] }).phase =
      (if ([({ id := "jack", maxHealth := 10, health := 10, position := ⟨7, 5⟩ } : Character)]).any
          (fun c => 0 < c.health ∧ c.position = (⟨7, 5⟩ : Hex))
        then Phase.victory else Phase.playing))
    ∧ ((Game.checkArtifactPickup
        { phase := Phase.playing
          currentRoom := 3
          characters := [{ id := "jack", maxHealth := 10, health := 10, position := ⟨7, 5⟩ }]
          enemies := [] } ⟨7, 5⟩).1 = true ↔ (⟨7, 5⟩ : Hex) = ⟨7, 5⟩) := by
  have h := claim2_final_room_artifact_victory
    { phase := Phase.playing
      currentRoom := 3
      characters := [{ id := "jack", maxHealth := 10, health := 10, position := ⟨7, 5⟩ }]
      enemies := [] } rfl rfl rfl
  exact ⟨h.1, (h.2 ⟨7, 5⟩).1⟩

/-! ## Claim C9 — damage operations preserve the state invariant -/

/-- C9.  Under the state invariant (each character's health in
`[0, maxHealth]` with a non-negative shield, each active enemy's health
positive), `damageCharacter` keeps every character's health in
`[0, maxHealth]` (and shield non-negative) and sets the phase to Defeat
whenever the damaged character's health lands at 0; `damageEnemy` leaves
only enemies with positive health in the active set, and when the damaged
enemy's health falls to 0 or below it is removed in the same operation
(no dead enemy remains). -/
theorem claim9_damage_preserves_invariants (s : GameState) (uid : String) (amount : Int)
    (hchars : ∀ c ∈ s.characters, 0 ≤ c.health ∧ c.health ≤ c.maxHealth ∧ 0 ≤ c.shield)
    (henemies : ∀ e ∈ s.enemies, 0 < e.health) :
    (∀ c ∈ (Store.damageCharacter s uid amount).characters,
        0 ≤ c.health ∧ c.health ≤ c.maxHealth ∧ 0 ≤ c.shield)
    ∧ (∀ c, (Store.damageCharacter s uid amount).characters.find? (fun x => x.id = uid) = some c →
        c.health = 0 → (Store.damageCharacter s uid amount).phase = Phase.defeat)
    ∧ (∀ e ∈ (Store.damageEnemy s uid amount).enemies, 0 < e.health)
    ∧ (∀ en, s.enemies.find? (fun e => e.id = uid) = some en → en.health - amount ≤ 0 →
        ∀ e ∈ (Store.damageEnemy s uid amount).enemies, ¬ e.id = uid) := by
  refine ⟨?_, ?_, ?_, ?_⟩
  · intro c hc
    cases hfind : s.characters.find? (fun c => c.id = uid) with
    | none =>
      simp only [Store.damageCharacter, hfind] at hc
      exact hchars c hc
    | some char =>
      have hmem : char ∈ s.characters := List.mem_of_find?_eq_some hfind
      have hinv := hchars char hmem
      simp only [Store.damageCharacter, hfind, apply_ite GameState.characters,
        ite_self] at hc
      rcases mem_updateFirst _ _ char s.characters hfind c hc with h | h
      · exact hchars c h
      · subst h
        refine ⟨?_, ?_, ?_⟩
        · show (0 : Int) ≤ max 0 (char.health - (amount - min char.shield amount))
          omega
        · show max 0 (char.health - (amount - min char.shield amount)) ≤ char.maxHealth
          omega
        · show (0 : Int) ≤ char.shield - min char.shield amount
          omega
  · intro c hfound hzero
    cases hfind : s.characters.find? (fun c => c.id = uid) with
    | none =>
      simp only [Store.damageCharacter, hfind] at hfound
      exact Option.noConfusion hfound
    | some char =>
      have hp : ∀ x : Character,
          ((fun c => (c.id = uid : Bool))
            ({ x with
                shield := char.shield - min char.shield amount
                health := max 0 (char.health - (amount - min char.shield amount)) } : Character))
          = (fun c => (c.id = uid : Bool)) x := fun _ => rfl
      have hfu := find?_updateFirst (fun c => (c.id = uid : Bool))
        (fun x => { x with
            shield := char.shield - min char.shield amount
            health := max 0 (char.health - (amount - min char.shield amount)) }) hp s.characters
      simp only [Store.damageCharacter, hfind, apply_ite GameState.characters,
        ite_self] at hfound
      rw [hfu, hfind, Option.map_some'] at hfound
      have hch : c.health = max 0 (char.health - (amount - min char.shield amount)) := by
        cases hfound
        rfl
      simp only [Store.damageCharacter, hfind, apply_ite GameState.phase]
      have hcond : max 0 (char.health - (amount - min char.shield amount)) ≤ 0 := by omega
      rw [if_pos hcond]
  · intro e he
    cases hfind : s.enemies.find? (fun e => e.id = uid) with
    | none =>
      simp only [Store.damageEnemy, hfind] at he
      exact henemies e he
    | some enemy =>
      simp only [Store.damageEnemy, hfind, apply_ite GameState.enemies] at he
      split at he
      · exact henemies e (List.mem_of_mem_filter he)
      · rename_i hgt
        rcases mem_updateFirst _ _ enemy s.enemies hfind e he with h | h
        · exact henemies e h
        · subst h
          show 0 < enemy.health - amount
          omega
  · intro en hfind hle e he
    simp only [Store.damageEnemy, hfind, apply_ite GameState.enemies] at he
    rw [if_pos hle] at he
    have := List.of_mem_filter he
    simpa using this

/-- C9, witness: applying the invariant theorem twice to a concrete state
(Jack 5/10 with shield 1; two warriors at 6 health): an overkill hit on
Jack lands at health 0 and flips the phase to Defeat, and dealing 6 to
`enemy_0` removes it, leaving only `enemy_1` (whose id differs). -/
theorem claim9_witness :
    (Store.damageCharacter
      { phase := Phase.playing
        currentRoom := 1
        characters := [{ id := "jack", maxHealth := 10, health := 5, shield := 1, position := ⟨0, 0⟩ }]
        enemies :=
          [ { id := "enemy_0", etype := "jaffa_warrior", health := 6, maxHealth := 6
              position := ⟨5, 3⟩, move := 2, attack := 3, range := 1, ai := "melee" },
            { id := "enemy_1", etype := "jaffa_warrior", health := 6, maxHealth := 6
              position := ⟨4, 4⟩, move := 2, attack := 3, range := 1, ai := "melee" } ] }
      "jack" 20).phase = Phase.defeat
    ∧ ¬ ({ id := "enemy_1", etype := "jaffa_warrior", health := 6, maxHealth := 6
           position := ⟨4, 4⟩, move := 2, attack := 3, range := 1, ai := "melee" } : Enemy).id
        = "enemy_0" := by
  constructor
  · exact (claim9_damage_preserves_invariants _ "jack" 20 (by decide) (by decide)).2.1
      { id := "jack", maxHealth := 10, health := 0, shield := 0, position := ⟨0, 0⟩ }
      (by decide) (by decide)
  · exact (claim9_damage_preserves_invariants
      { phase := Phase.playing
        currentRoom := 1
        characters := [{ id := "jack", maxHealth := 10, health := 5, shield := 1, position := ⟨0, 0⟩ }]
        enemies :=
          [ { id := "enemy_0", etype := "jaffa_warrior", health := 6, maxHealth := 6
              position := ⟨5, 3⟩, move := 2, attack := 3, range := 1, ai := "melee" },
            { id := "enemy_1", etype := "jaffa_warrior", health := 6, maxHealth := 6
              position := ⟨4, 4⟩, move := 2, attack := 3, range := 1, ai := "melee" } ] }
      "enemy_0" 6 (by decide) (by decide)).2.2.2
      { id := "enemy_0", etype := "jaffa_warrior", health := 6, maxHealth := 6
        position := ⟨5, 3⟩, move := 2, attack := 3, range := 1, ai := "melee" }
      (by decide) (by decide)
      { id := "enemy_1", etype := "jaffa_warrior", health := 6, maxHealth := 6
        position := ⟨4, 4⟩, move := 2, attack := 3, range := 1, ai := "melee" }
      (by decide)

/-! ## Claim C6 — push resolution -/

/-- Stepping once more along `dir` from the `j`-th hex of the push chain
lands on the `(j+1)`-th. -/
theorem scaled_add_dir (targetPos dir : Hex) (j : Nat) :
    HexMath.add (HexMath.scaled targetPos dir j) dir = HexMath.scaled targetPos dir (j + 1) := by
  simp only [HexMath.add, HexMath.scaled, Hex.mk.injEq]
  constructor <;> push_cast <;> ring

/-- The push chain starts at the target's own hex. -/
theorem scaled_zero (targetPos dir : Hex) :
    HexMath.scaled targetPos dir 0 = targetPos := by
  simp [HexMath.scaled]

/-- Full characterisation of the push loop started at chain position `j`
with `k` steps of budget: it advances along the chain while the next hex is
free, the final count is between `j` and `j + k`, the final hex is the
chain hex of the final count, every step taken was onto a free hex, and a
stop before exhausting the budget means the next hex was blocked. -/
theorem pushLoop_spec (s : GameState) (targetId : String) (dir targetPos : Hex) :
    ∀ (k j : Nat),
      j ≤ (Combat.pushLoop s targetId dir k (HexMath.scaled targetPos dir j) j).2
      ∧ (Combat.pushLoop s targetId dir k (HexMath.scaled targetPos dir j) j).2 ≤ j + k
      ∧ (Combat.pushLoop s targetId dir k (HexMath.scaled targetPos dir j) j).1
          = HexMath.scaled targetPos dir
              (Combat.pushLoop s targetId dir k (HexMath.scaled targetPos dir j) j).2
      ∧ (∀ i : Nat, j ≤ i →
          i < (Combat.pushLoop s targetId dir k (HexMath.scaled targetPos dir j) j).2 →
          Combat.pushStepFree s targetId (HexMath.scaled targetPos dir (i + 1)) = true)
      ∧ ((Combat.pushLoop s targetId dir k (HexMath.scaled targetPos dir j) j).2 < j + k →
          Combat.pushStepFree s targetId
            (HexMath.scaled targetPos dir
              ((Combat.pushLoop s targetId dir k (HexMath.scaled targetPos dir j) j).2 + 1))
            = false) := by
  intro k
  induction k with
  | zero =>
    intro j
    refine ⟨le_refl _, by simp [Combat.pushLoop], rfl, ?_, ?_⟩
    · intro i h1 h2
      simp only [Combat.pushLoop] at h2
      omega
    · intro hlt
      simp only [Combat.pushLoop] at hlt
      omega
  | succ k ih =>
    intro j
    have hstep : Combat.pushLoop s targetId dir (k + 1) (HexMath.scaled targetPos dir j) j
        = if Combat.pushStepFree s targetId (HexMath.scaled targetPos dir (j + 1)) then
            Combat.pushLoop s targetId dir k (HexMath.scaled targetPos dir (j + 1)) (j + 1)
          else (HexMath.scaled targetPos dir j, j) := by
      show (if Combat.pushStepFree s targetId
            (HexMath.add (HexMath.scaled targetPos dir j) dir) then _ else _) = _
      rw [scaled_add_dir]
    by_cases hfree : Combat.pushStepFree s targetId (HexMath.scaled targetPos dir (j + 1)) = true
    · rw [hstep, if_pos hfree]
      obtain ⟨h1, h2, h3, h4, h5⟩ := ih (j + 1)
      refine ⟨by omega, by omega, h3, ?_, fun hlt => h5 (by omega)⟩
      intro i hji hilt
      by_cases hij : i = j
      · subst hij
        exact hfree
      · exact h4 i (by omega) hilt
    · rw [hstep, if_neg hfree]
      refine ⟨le_refl _, by omega, rfl, ?_, ?_⟩
      · intro i h1 h2
        omega
      · intro _
        simpa using hfree

/-- C6.  `executePush` pushes the target along the snapped hex direction
from pusher to target, one hex at a time: the returned distance is at most
the requested one; the report is a success report carrying that distance
when positive and the distinct blocked report when zero; a zero push leaves
the state untouched; every hex actually stepped onto was free (in bounds,
not a wall, not occupied by another unit); a stop short of the requested
distance means the next hex was blocked; and a positive push relocates the
target (enemy or character, by id membership) onto the final chain hex. -/
theorem claim6_executePush_spec (s : GameState) (pusherPos targetPos : Hex)
    (targetId : String) (d : Nat) :
    (Combat.executePush s pusherPos targetPos targetId d).2.1 ≤ d
    ∧ (Combat.executePush s pusherPos targetPos targetId d).2.2
        = (if 0 < (Combat.executePush s pusherPos targetPos targetId d).2.1 then
            PushReport.success (Combat.executePush s pusherPos targetPos targetId d).2.1
          else PushReport.blocked)
    ∧ ((Combat.executePush s pusherPos targetPos targetId d).2.1 = 0 →
        (Combat.executePush s pusherPos targetPos targetId d).1 = s)
    ∧ (∀ i : Nat, i < (Combat.executePush s pusherPos targetPos targetId d).2.1 →
        Combat.pushStepFree s targetId
          (HexMath.scaled targetPos (HexMath.getDirection pusherPos targetPos) (i + 1)) = true)
    ∧ ((Combat.executePush s pusherPos targetPos targetId d).2.1 < d →
        Combat.pushStepFree s targetId
          (HexMath.scaled targetPos (HexMath.getDirection pusherPos targetPos)
            ((Combat.executePush s pusherPos targetPos targetId d).2.1 + 1)) = false)
    ∧ (0 < (Combat.executePush s pusherPos targetPos targetId d).2.1 →
        (if s.enemies.any (fun e => e.id = targetId) then
          ∀ e ∈ (Combat.executePush s pusherPos targetPos targetId d).1.enemies,
            e.id = targetId →
            e.position = HexMath.scaled targetPos (HexMath.getDirection pusherPos targetPos)
              (Combat.executePush s pusherPos targetPos targetId d).2.1
        else
          ∀ c ∈ (Combat.executePush s pusherPos targetPos targetId d).1.characters,
            c.id = targetId →
            c.position = HexMath.scaled targetPos (HexMath.getDirection pusherPos targetPos)
              (Combat.executePush s pusherPos targetPos targetId d).2.1)) := by
  have hspec := pushLoop_spec s targetId (HexMath.getDirection pusherPos targetPos) targetPos d 0
  rw [scaled_zero] at hspec
  obtain ⟨h1, h2, h3, h4, h5⟩ := hspec
  have hpr : Combat.executePush s pusherPos targetPos targetId d =
      (let result := Combat.pushLoop s targetId (HexMath.getDirection pusherPos targetPos) d targetPos 0
       if result.2 > 0 then
        (if s.enemies.any (fun e => e.id = targetId) then
          { s with enemies := s.enemies.map fun e =>
              if e.id = targetId then { e with position := result.1 } else e }
        else
          { s with characters := s.characters.map fun c =>
              if c.id = targetId then { c with position := result.1 } else c },
         result.2, PushReport.success result.2)
       else (s, result.2, PushReport.blocked)) := rfl
  set result := Combat.pushLoop s targetId (HexMath.getDirection pusherPos targetPos) d targetPos 0 with hres
  by_cases hpos : result.2 > 0
  · rw [hpr]
    simp only [hpos, if_pos, ite_true]
    by_cases hene : s.enemies.any (fun e => e.id = targetId) = true
    · simp only [hene, ite_true]
      refine ⟨by omega, by simp [hpos], by omega, fun i hi => h4 i (by omega) hi,
        fun hlt => h5 (by omega), ?_⟩
      intro _ e he heid
      rcases List.mem_map.mp he with ⟨x, hx, hxe⟩
      by_cases hxid : x.id = targetId
      · rw [← hxe]
        simp only [hxid, ite_true, if_pos]
        exact h3 ▸ rfl
      · rw [← hxe] at heid
        simp only [hxid, ite_false, if_neg, Bool.false_eq_true, not_false_eq_true] at heid
    · simp only [hene, Bool.false_eq_true, ite_false]
      refine ⟨by omega, by simp [hpos], by omega, fun i hi => h4 i (by omega) hi,
        fun hlt => h5 (by omega), ?_⟩
      intro _ c hc hcid
      rcases List.mem_map.mp hc with ⟨x, hx, hxc⟩
      by_cases hxid : x.id = targetId
      · rw [← hxc]
        simp only [hxid, ite_true, if_pos]
        exact h3 ▸ rfl
      · rw [← hxc] at hcid
        simp only [hxid, ite_false, if_neg, Bool.false_eq_true, not_false_eq_true] at hcid
  · rw [hpr]
    rw [if_neg hpos]
    have hz : result.2 = 0 := by omega
    have hP1 : (s, result.2, PushReport.blocked).2.1 = result.2 := rfl
    have hP2 : (s, result.2, PushReport.blocked).2.2 = PushReport.blocked := rfl
    have hP3 : (s, result.2, PushReport.blocked).1 = s := rfl
    simp only [hP1, hP2, hP3]
    refine ⟨by omega, by simp [hz], fun _ => trivial, fun i hi => absurd hi (by omega),
      fun hlt => h5 (by omega), fun hcontra => absurd hcontra (by omega)⟩

/-- C6, witness: in room 1, Jack at `(3,3)` pushes the warrior at `(4,3)`
for 3; the first two steps (to `(5,3)` then `(6,3)`) are free, the third
leaves the 7-wide room, so the push stops at distance 2 with a success
report, and a blocked next hex is reported by the spec. -/
theorem claim6_witness :
    (Combat.executePush
      { phase := Phase.playing
        currentRoom := 1
        characters := [{ id := "jack", maxHealth := 10, health := 10, position := ⟨3, 3⟩ }]
        enemies :=
          [ { id := "enemy_0", etype := "jaffa_warrior", health := 6, maxHealth := 6
              position := ⟨4, 3⟩, move := 2, attack := 3, range := 1, ai := "melee" } ] }
      ⟨3, 3⟩ ⟨4, 3⟩ "enemy_0" 3).2.1 ≤ 3
    ∧ ((Combat.executePush
      { phase := Phase.playing
        currentRoom := 1
        characters := [{ id := "jack", maxHealth := 10, health := 10, position := ⟨3, 3⟩ }]
        enemies :=
          [ { id := "enemy_0", etype := "jaffa_warrior", health := 6, maxHealth := 6
              position := ⟨4, 3⟩, move := 2, attack := 3, range := 1, ai := "melee" } ] }
      ⟨3, 3⟩ ⟨4, 3⟩ "enemy_0" 3).2.1 < 3 →
      Combat.pushStepFree
        { phase := Phase.playing
          currentRoom := 1
          characters := [{ id := "jack", maxHealth := 10, health := 10, position := ⟨3, 3⟩ }]
          enemies :=
            [ { id := "enemy_0", etype := "jaffa_warrior", health := 6, maxHealth := 6
                position := ⟨4, 3⟩, move := 2, attack := 3, range := 1, ai := "melee" } ] }
        "enemy_0"
        (HexMath.scaled ⟨4, 3⟩ (HexMath.getDirection ⟨3, 3⟩ ⟨4, 3⟩)
          ((Combat.executePush
            { phase := Phase.playing
              currentRoom := 1
              characters := [{ id := "jack", maxHealth := 10, health := 10, position := ⟨3, 3⟩ }]
              enemies :=
                [ { id := "enemy_0", etype := "jaffa_warrior", health := 6, maxHealth := 6
                    position := ⟨4, 3⟩, move := 2, attack := 3, range := 1, ai := "melee" } ] }
            ⟨3, 3⟩ ⟨4, 3⟩ "enemy_0" 3).2.1 + 1)) = false) := by
  have h := claim6_executePush_spec
    { phase := Phase.playing
      currentRoom := 1
      characters := [{ id := "jack", maxHealth := 10, health := 10, position := ⟨3, 3⟩ }]
      enemies :=
        [ { id := "enemy_0", etype := "jaffa_warrior", health := 6, maxHealth := 6
            position := ⟨4, 3⟩, move := 2, attack := 3, range := 1, ai := "melee" } ] }
    ⟨3, 3⟩ ⟨4, 3⟩ "enemy_0" 3
  exact ⟨h.1, h.2.2.2.2.1⟩

/-! ## Claim C5 — melee AI decision -/

theorem oLt_some_none (a : Nat) : Pathfinding.oLt (some a) none = true := rfl

theorem oLt_some_some (a b : Nat) : Pathfinding.oLt (some a) (some b) = decide (a < b) := rfl

/-- The strict-improvement fold of `findBestMoveToward`, started from a
candidate `m`, returns the first distance-minimising entry of
`m :: rest`. -/
theorem bestFold_go (targetPos : Hex) :
    ∀ (rest : List (Hex × Nat)) (m : Hex),
      ∃ m', (rest.foldl
          (fun (acc : Option Hex × Option Nat) p =>
            let distance := HexMath.distance p.1 targetPos
            if Pathfinding.oLt (some distance) acc.2 then (some p.1, some distance)
            else acc)
          (some m, some (HexMath.distance m targetPos)))
        = (some m', some (HexMath.distance m' targetPos))
      ∧ (m' = m ∨ ∃ p ∈ rest, p.1 = m')
      ∧ HexMath.distance m' targetPos ≤ HexMath.distance m targetPos
      ∧ (∀ p ∈ rest, HexMath.distance m' targetPos ≤ HexMath.distance p.1 targetPos) := by
  intro rest
  induction rest with
  | nil =>
    intro m
    exact ⟨m, rfl, Or.inl rfl, le_refl _, by simp⟩
  | cons q rest ih =>
    intro m
    by_cases hq : HexMath.distance q.1 targetPos < HexMath.distance m targetPos
    · have hstep : (List.foldl
          (fun (acc : Option Hex × Option Nat) p =>
            let distance := HexMath.distance p.1 targetPos
            if Pathfinding.oLt (some distance) acc.2 then (some p.1, some distance)
            else acc)
          (some m, some (HexMath.distance m targetPos)) (q :: rest))
          = (List.foldl
            (fun (acc : Option Hex × Option Nat) p =>
              let distance := HexMath.distance p.1 targetPos
              if Pathfinding.oLt (some distance) acc.2 then (some p.1, some distance)
              else acc)
            (some q.1, some (HexMath.distance q.1 targetPos)) rest) := by
        rw [List.foldl_cons]
        congr 1
        simp [oLt_some_some, hq]
      obtain ⟨m', hm'1, hm'2, hm'3, hm'4⟩ := ih q.1
      refine ⟨m', hstep ▸ hm'1, ?_, by omega, ?_⟩
      · rcases hm'2 with h | ⟨p, hp, hpe⟩
        · exact Or.inr ⟨q, List.mem_cons_self q rest, h.symm ▸ rfl⟩
        · exact Or.inr ⟨p, List.mem_cons_of_mem _ hp, hpe⟩
      · intro p hp
        rcases List.mem_cons.mp hp with h | h
        · subst h
          omega
        · exact hm'4 p h
    · have hstep : (List.foldl
          (fun (acc : Option Hex × Option Nat) p =>
            let distance := HexMath.distance p.1 targetPos
            if Pathfinding.oLt (some distance) acc.2 then (some p.1, some distance)
            else acc)
          (some m, some (HexMath.distance m targetPos)) (q :: rest))
          = (List.foldl
            (fun (acc : Option Hex × Option Nat) p =>
              let distance := HexMath.distance p.1 targetPos
              if Pathfinding.oLt (some distance) acc.2 then (some p.1, some distance)
              else acc)
            (some m, some (HexMath.distance m targetPos)) rest) := by
        rw [List.foldl_cons]
        congr 1
        simp [oLt_some_some, hq]
      obtain ⟨m', hm'1, hm'2, hm'3, hm'4⟩ := ih m
      refine ⟨m', hstep ▸ hm'1, ?_, hm'3, ?_⟩
      · rcases hm'2 with h | ⟨p, hp, hpe⟩
        · exact Or.inl h
        · exact Or.inr ⟨p, List.mem_cons_of_mem _ hp, hpe⟩
      · intro p hp
        rcases List.mem_cons.mp hp with h | h
        · subst h
          omega
        · exact hm'4 p h

/-- `findBestMoveToward` returns `none` exactly when nothing is reachable,
and any returned hex is a reachable hex at minimal distance to the
target. -/
theorem findBestMoveToward_spec (fuel : Nat) (enemy : Enemy) (targetPos : Hex)
    (moveRange : Nat) (s : GameState) :
    (EnemyAI.findBestMoveToward fuel enemy targetPos moveRange s = none ↔
      Pathfinding.getReachableHexes fuel enemy.position moveRange
        (fun hex => EnemyAI.isWalkable hex s) = [])
    ∧ (∀ m, EnemyAI.findBestMoveToward fuel enemy targetPos moveRange s = some m →
        (∃ p ∈ Pathfinding.getReachableHexes fuel enemy.position moveRange
            (fun hex => EnemyAI.isWalkable hex s), p.1 = m)
        ∧ (∀ p ∈ Pathfinding.getReachableHexes fuel enemy.position moveRange
            (fun hex => EnemyAI.isWalkable hex s),
            HexMath.distance m targetPos ≤ HexMath.distance p.1 targetPos)) := by
  unfold EnemyAI.findBestMoveToward
  cases hl : Pathfinding.getReachableHexes fuel enemy.position moveRange
      (fun hex => EnemyAI.isWalkable hex s) with
  | nil => simp
  | cons q rest =>
    simp only [List.isEmpty_cons, Bool.false_eq_true, ite_false]
    have hstep : (List.foldl
        (fun (acc : Option Hex × Option Nat) p =>
          let distance := HexMath.distance p.1 targetPos
          if Pathfinding.oLt (some distance) acc.2 then (some p.1, some distance)
          else acc)
        ((none : Option Hex), (none : Option Nat)) (q :: rest))
        = (List.foldl
          (fun (acc : Option Hex × Option Nat) p =>
            let distance := HexMath.distance p.1 targetPos
            if Pathfinding.oLt (some distance) acc.2 then (some p.1, some distance)
            else acc)
          (some q.1, some (HexMath.distance q.1 targetPos)) rest) := by
      rw [List.foldl_cons]
      congr 1
    obtain ⟨m', hm'1, hm'2, hm'3, hm'4⟩ := bestFold_go targetPos rest q.1
    rw [hstep, hm'1]
    constructor
    · simp
    · intro m hm
      obtain rfl : m' = m := by simpa using hm
      refine ⟨?_, ?_⟩
      · rcases hm'2 with h | ⟨p, hp, hpe⟩
        · exact ⟨q, List.mem_cons_self q rest, h.symm ▸ rfl⟩
        · exact ⟨p, List.mem_cons_of_mem _ hp, hpe⟩
      · intro p hp
        rcases List.mem_cons.mp hp with h | h
        · subst h
          exact hm'3
        · exact hm'4 p h

/-- C5, counterexample.  The claim says a melee enemy that cannot improve
its position waits.  The code waits only when **nothing** is reachable: it
moves to the distance-minimising reachable hex even when that hex is
farther from the target than standing still.  Concrete input (room 1,
7×7): the warrior at `(6,0)` with move 1 is 6 hexes from Jack at `(0,0)`;
blockers occupy `(5,0)` and `(5,1)`, so its only reachable hex is `(6,1)`
at distance 7 — no improvement — yet the decision is `move (6,1)`, not
`wait`. -/
theorem claim5_counterexample :
    (EnemyAI.decideAction 50
      { id := "enemy_0", etype := "jaffa_warrior", health := 6, maxHealth := 6
        position := ⟨6, 0⟩, move := 1, attack := 3, range := 1, ai := "melee" }
      { phase := Phase.playing
        currentRoom := 1
        characters := [{ id := "jack", maxHealth := 10, health := 10, position := ⟨0, 0⟩ }]
        enemies :=
          [ { id := "enemy_0", etype := "jaffa_warrior", health := 6, maxHealth := 6
              position := ⟨6, 0⟩, move := 1, attack := 3, range := 1, ai := "melee" },
            { id := "enemy_1", etype := "jaffa_warrior", health := 6, maxHealth := 6
              position := ⟨5, 0⟩, move := 2, attack := 3, range := 1, ai := "melee" },
            { id := "enemy_2", etype := "jaffa_warrior", health := 6, maxHealth := 6
              position := ⟨5, 1⟩, move := 2, attack := 3, range := 1, ai := "melee" } ] })
      = EnemyAction.move ⟨6, 1⟩
    ∧ ((Pathfinding.getReachableHexes 50 ⟨6, 0⟩ 1
        (fun hex => EnemyAI.isWalkable hex
          { phase := Phase.playing
            currentRoom := 1
            characters := [{ id := "jack", maxHealth := 10, health := 10, position := ⟨0, 0⟩ }]
            enemies :=
              [ { id := "enemy_0", etype := "jaffa_warrior", health := 6, maxHealth := 6
                  position := ⟨6, 0⟩, move := 1, attack := 3, range := 1, ai := "melee" },
                { id := "enemy_1", etype := "jaffa_warrior", health := 6, maxHealth := 6
                  position := ⟨5, 0⟩, move := 2, attack := 3, range := 1, ai := "melee" },
                { id := "enemy_2", etype := "jaffa_warrior", health := 6, maxHealth := 6
                  position := ⟨5, 1⟩, move := 2, attack := 3, range := 1, ai := "melee" } ] })).all
        (fun p => HexMath.distance ⟨6, 0⟩ ⟨0, 0⟩ < HexMath.distance p.1 ⟨0, 0⟩)) = true
    ∧ EnemyAction.move ⟨6, 1⟩ ≠ EnemyAction.wait := by
  refine ⟨by decide, by decide, by decide⟩

/-- C5, amended.  For a melee enemy (not stunned) whose nearest living
character is beyond its attack range: when no hex is reachable within its
move allowance it waits; otherwise it selects a reachable hex at minimal
hex distance to that character — whether or not that improves on its
current distance — returning `moveAndAttack` when the chosen hex lands
within attack range and a plain `move` otherwise. -/
theorem claim5_amended_melee_decision (fuel : Nat) (enemy : Enemy) (s : GameState)
    (target : Character)
    (hstun : enemy.stunned = false)
    (hai : enemy.ai = "melee")
    (hnear : EnemyAI.findNearestTarget enemy s.characters = some target)
    (hfar : enemy.range < HexMath.distance enemy.position target.position) :
    (Pathfinding.getReachableHexes fuel enemy.position enemy.move
        (fun hex => EnemyAI.isWalkable hex s) = [] →
      EnemyAI.decideAction fuel enemy s = EnemyAction.wait)
    ∧ (∀ m, EnemyAI.findBestMoveToward fuel enemy target.position enemy.move s = some m →
        ((∃ p ∈ Pathfinding.getReachableHexes fuel enemy.position enemy.move
            (fun hex => EnemyAI.isWalkable hex s), p.1 = m)
          ∧ (∀ p ∈ Pathfinding.getReachableHexes fuel enemy.position enemy.move
              (fun hex => EnemyAI.isWalkable hex s),
              HexMath.distance m target.position ≤ HexMath.distance p.1 target.position))
        ∧ EnemyAI.decideAction fuel enemy s =
            (if HexMath.distance m target.position ≤ enemy.range then
              EnemyAction.moveAndAttack m target
            else EnemyAction.move m))
    ∧ (EnemyAI.findBestMoveToward fuel enemy target.position enemy.move s = none ↔
        Pathfinding.getReachableHexes fuel enemy.position enemy.move
          (fun hex => EnemyAI.isWalkable hex s) = []) := by
  have hspec := findBestMoveToward_spec fuel enemy target.position enemy.move s
  have hdecide : EnemyAI.decideAction fuel enemy s
      = EnemyAI.decideMeleeAction fuel enemy target
          (HexMath.distance enemy.position target.position) s := by
    unfold EnemyAI.decideAction
    simp only [hstun, Bool.false_eq_true, ite_false, hnear, hai, if_pos, ite_true]
  have hmelee : EnemyAI.decideMeleeAction fuel enemy target
      (HexMath.distance enemy.position target.position) s
      = (match EnemyAI.findBestMoveToward fuel enemy target.position enemy.move s with
        | some moveTarget =>
          if HexMath.distance moveTarget target.position ≤ enemy.range then
            EnemyAction.moveAndAttack moveTarget target
          else EnemyAction.move moveTarget
        | none => EnemyAction.wait) := by
    unfold EnemyAI.decideMeleeAction
    rw [if_neg (by omega)]
  refine ⟨?_, ?_, hspec.1⟩
  · intro hempty
    rw [hdecide, hmelee, hspec.1.mpr hempty]
  · intro m hm
    refine ⟨hspec.2 m hm, ?_⟩
    rw [hdecide, hmelee, hm]

/-- C5, witness for the amended theorem: the counterexample's state — the
only reachable hex `(6,1)` is selected (it is reachable and
distance-minimal) and, being outside attack range, the decision is a plain
`move` there. -/
theorem claim5_amended_witness :
    ((∃ p ∈ Pathfinding.getReachableHexes 50 (⟨6, 0⟩ : Hex) 1
        (fun hex => EnemyAI.isWalkable hex
          { phase := Phase.playing
            currentRoom := 1
            characters := [{ id := "jack", maxHealth := 10, health := 10, position := ⟨0, 0⟩ }]
            enemies :=
              [ { id := "enemy_0", etype := "jaffa_warrior", health := 6, maxHealth := 6
                  position := ⟨6, 0⟩, move := 1, attack := 3, range := 1, ai := "melee" },
                { id := "enemy_1", etype := "jaffa_warrior", health := 6, maxHealth := 6
                  position := ⟨5, 0⟩, move := 2, attack := 3, range := 1, ai := "melee" },
                { id := "enemy_2", etype := "jaffa_warrior", health := 6, maxHealth := 6
                  position := ⟨5, 1⟩, move := 2, attack := 3, range := 1, ai := "melee" } ] }),
        p.1 = (⟨6, 1⟩ : Hex))
      ∧ (∀ p ∈ Pathfinding.getReachableHexes 50 (⟨6, 0⟩ : Hex) 1
          (fun hex => EnemyAI.isWalkable hex
            { phase := Phase.playing
              currentRoom := 1
              characters := [{ id := "jack", maxHealth := 10, health := 10, position := ⟨0, 0⟩ }]
              enemies :=
                [ { id := "enemy_0", etype := "jaffa_warrior", health := 6, maxHealth := 6
                    position := ⟨6, 0⟩, move := 1, attack := 3, range := 1, ai := "melee" },
                  { id := "enemy_1", etype := "jaffa_warrior", health := 6, maxHealth := 6
                    position := ⟨5, 0⟩, move := 2, attack := 3, range := 1, ai := "melee" },
                  { id := "enemy_2", etype := "jaffa_warrior", health := 6, maxHealth := 6
                    position := ⟨5, 1⟩, move := 2, attack := 3, range := 1, ai := "melee" } ] }),
          HexMath.distance ⟨6, 1⟩ (⟨0, 0⟩ : Hex) ≤ HexMath.distance p.1 (⟨0, 0⟩ : Hex)))
    ∧ EnemyAI.decideAction 50
        { id := "enemy_0", etype := "jaffa_warrior", health := 6, maxHealth := 6
          position := ⟨6, 0⟩, move := 1, attack := 3, range := 1, ai := "melee" }
        { phase := Phase.playing
          currentRoom := 1
          characters := [{ id := "jack", maxHealth := 10, health := 10, position := ⟨0, 0⟩ }]
          enemies :=
            [ { id := "enemy_0", etype := "jaffa_warrior", health := 6, maxHealth := 6
                position := ⟨6, 0⟩, move := 1, attack := 3, range := 1, ai := "melee" },
              { id := "enemy_1", etype := "jaffa_warrior", health := 6, maxHealth := 6
                position := ⟨5, 0⟩, move := 2, attack := 3, range := 1, ai := "melee" },
              { id := "enemy_2", etype := "jaffa_warrior", health := 6, maxHealth := 6
                position := ⟨5, 1⟩, move := 2, attack := 3, range := 1, ai := "melee" } ] }
      = (if HexMath.distance (⟨6, 1⟩ : Hex) (⟨0, 0⟩ : Hex) ≤
          ({ id := "enemy_0", etype := "jaffa_warrior", health := 6, maxHealth := 6
             position := ⟨6, 0⟩, move := 1, attack := 3, range := 1, ai := "melee" } : Enemy).range
        then EnemyAction.moveAndAttack ⟨6, 1⟩
          { id := "jack", maxHealth := 10, health := 10, position := ⟨0, 0⟩ }
        else EnemyAction.move ⟨6, 1⟩) := by
  exact (claim5_amended_melee_decision 50
    { id := "enemy_0", etype := "jaffa_warrior", health := 6, maxHealth := 6
      position := ⟨6, 0⟩, move := 1, attack := 3, range := 1, ai := "melee" }
    { phase := Phase.playing
      currentRoom := 1
      characters := [{ id := "jack", maxHealth := 10, health := 10, position := ⟨0, 0⟩ }]
      enemies :=
        [ { id := "enemy_0", etype := "jaffa_warrior", health := 6, maxHealth := 6
            position := ⟨6, 0⟩, move := 1, attack := 3, range := 1, ai := "melee" },
          { id := "enemy_1", etype := "jaffa_warrior", health := 6, maxHealth := 6
            position := ⟨5, 0⟩, move := 2, attack := 3, range := 1, ai := "melee" },
          { id := "enemy_2", etype := "jaffa_warrior", health := 6, maxHealth := 6
            position := ⟨5, 1⟩, move := 2, attack := 3, range := 1, ai := "melee" } ] }
    { id := "jack", maxHealth := 10, health := 10, position := ⟨0, 0⟩ }
    rfl rfl (by decide) (by decide)).2.1 ⟨6, 1⟩ (by decide)

/-! ## Claim C8 — BFS reachable-set properties -/

/-- An empty queue ends the BFS immediately, whatever the budget. -/
theorem bfsLoop_nil (w : Hex → Bool) (range fuel : Nat) (visited : List Hex)
    (acc : List (Hex × Nat)) :
    Pathfinding.bfsLoop w range fuel [] visited acc = acc := by
  cases fuel <;> rfl

/-- The neighbor-expansion fold of the BFS preserves the visited set (in
particular the start hex stays visited) and only enqueues walkable,
unvisited neighbors at depth `dist + 1`. -/
theorem bfsFold_spec (w : Hex → Bool) (range : Nat) (start : Hex) (dist : Nat)
    (hdlt : dist < range) :
    ∀ (nbrs : List Hex) (qv : List (Hex × Nat) × List Hex),
      start ∈ qv.2 →
      (∀ p ∈ qv.1, p.2 ≤ range ∧ (p.2 = 0 ∨ (1 ≤ p.2 ∧ p.1 ≠ start ∧ w p.1 = true))) →
      start ∈ (nbrs.foldl
          (fun (qv : List (Hex × Nat) × List Hex) neighbor =>
            if neighbor ∉ qv.2 ∧ w neighbor then
              (qv.1 ++ [(neighbor, dist + 1)], qv.2 ++ [neighbor])
            else qv) qv).2
      ∧ (∀ p ∈ (nbrs.foldl
          (fun (qv : List (Hex × Nat) × List Hex) neighbor =>
            if neighbor ∉ qv.2 ∧ w neighbor then
              (qv.1 ++ [(neighbor, dist + 1)], qv.2 ++ [neighbor])
            else qv) qv).1,
          p.2 ≤ range ∧ (p.2 = 0 ∨ (1 ≤ p.2 ∧ p.1 ≠ start ∧ w p.1 = true))) := by
  intro nbrs
  induction nbrs with
  | nil => exact fun qv hv hq => ⟨hv, hq⟩
  | cons n nbrs ih =>
    intro qv hv hq
    rw [List.foldl_cons]
    by_cases hcond : n ∉ qv.2 ∧ w n = true
    · rw [if_pos hcond]
      refine ih _ (List.mem_append_left _ hv) ?_
      intro p hp
      rcases List.mem_append.mp hp with h | h
      · exact hq p h
      · have hpe : p = (n, dist + 1) := by simpa using h
        subst hpe
        refine ⟨by omega, Or.inr ⟨by omega, ?_, hcond.2⟩⟩
        intro hns
        apply hcond.1
        have hns' : n = start := hns
        rw [hns']
        exact hv
    · rw [if_neg hcond]
      exact ih _ hv hq

/-- BFS loop invariant: with the start hex visited, every queue entry at
depth `≤ range` (the start at depth 0, others walkable non-start hexes at
depth `≥ 1`), and every collected entry well-formed, everything the loop
returns is a walkable non-start hex with depth in `[1, range]`. -/
theorem bfsLoop_entries (w : Hex → Bool) (range : Nat) (start : Hex) :
    ∀ (fuel : Nat) (queue : List (Hex × Nat)) (visited : List Hex) (acc : List (Hex × Nat)),
      start ∈ visited →
      (∀ p ∈ queue, p.2 ≤ range ∧ (p.2 = 0 ∨ (1 ≤ p.2 ∧ p.1 ≠ start ∧ w p.1 = true))) →
      (∀ p ∈ acc, 1 ≤ p.2 ∧ p.2 ≤ range ∧ p.1 ≠ start ∧ w p.1 = true) →
      ∀ p ∈ Pathfinding.bfsLoop w range fuel queue visited acc,
        1 ≤ p.2 ∧ p.2 ≤ range ∧ p.1 ≠ start ∧ w p.1 = true := by
  intro fuel
  induction fuel with
  | zero => exact fun queue visited acc _ _ hacc p hp => hacc p hp
  | succ fuel ih =>
    intro queue visited acc hv hq hacc
    cases queue with
    | nil =>
      intro p hp
      rw [bfsLoop_nil] at hp
      exact hacc p hp
    | cons hd queue =>
      obtain ⟨hex, dist⟩ := hd
      have hhd := hq (hex, dist) (List.mem_cons_self _ _)
      have hq' : ∀ p ∈ queue, p.2 ≤ range ∧ (p.2 = 0 ∨ (1 ≤ p.2 ∧ p.1 ≠ start ∧ w p.1 = true)) :=
        fun p hp => hq p (List.mem_cons_of_mem _ hp)
      have hacc' : ∀ p ∈ (if dist > 0 then acc ++ [(hex, dist)] else acc),
          1 ≤ p.2 ∧ p.2 ≤ range ∧ p.1 ≠ start ∧ w p.1 = true := by
        intro p hp
        by_cases hd0 : dist > 0
        · rw [if_pos hd0] at hp
          rcases List.mem_append.mp hp with h | h
          · exact hacc p h
          · have hpe : p = (hex, dist) := by simpa using h
            subst hpe
            rcases hhd.2 with h0 | ⟨h1, h2, h3⟩
            · omega
            · exact ⟨h1, hhd.1, h2, h3⟩
        · rw [if_neg hd0] at hp
          exact hacc p hp
      show ∀ p ∈ Pathfinding.bfsLoop w range (fuel + 1) ((hex, dist) :: queue) visited acc, _
      by_cases hdr : dist < range
      · have hfold := bfsFold_spec w range start dist hdr (HexMath.neighbors hex)
          (queue, visited) hv hq'
        have hunfold : Pathfinding.bfsLoop w range (fuel + 1) ((hex, dist) :: queue) visited acc
            = Pathfinding.bfsLoop w range fuel
              ((HexMath.neighbors hex).foldl
                (fun (qv : List (Hex × Nat) × List Hex) neighbor =>
                  if neighbor ∉ qv.2 ∧ w neighbor then
                    (qv.1 ++ [(neighbor, dist + 1)], qv.2 ++ [neighbor])
                  else qv) (queue, visited)).1
              ((HexMath.neighbors hex).foldl
                (fun (qv : List (Hex × Nat) × List Hex) neighbor =>
                  if neighbor ∉ qv.2 ∧ w neighbor then
                    (qv.1 ++ [(neighbor, dist + 1)], qv.2 ++ [neighbor])
                  else qv) (queue, visited)).2
              (if dist > 0 then acc ++ [(hex, dist)] else acc) := by
          show (if dist < range then _ else _) = _
          rw [if_pos hdr]
        rw [hunfold]
        exact ih _ _ _ hfold.1 hfold.2 hacc'
      · have hunfold : Pathfinding.bfsLoop w range (fuel + 1) ((hex, dist) :: queue) visited acc
            = Pathfinding.bfsLoop w range fuel queue visited
              (if dist > 0 then acc ++ [(hex, dist)] else acc) := by
          show (if dist < range then _ else _) = _
          rw [if_neg hdr]
        rw [hunfold]
        exact ih _ _ _ hv hq' hacc'

/-- C8.  `getReachableHexes` with range 0 returns the empty list, whatever
the walkability predicate; every returned entry has step distance in
`[1, range]`, is never the start hex, and is walkable under the supplied
predicate; and under the combat walkability predicate every returned hex
is inside the room bounds, on no wall hex, and occupied by no character
and no enemy. -/
theorem claim8_reachable_hexes_spec (fuel : Nat) (start : Hex) (range : Nat)
    (w : Hex → Bool) :
    Pathfinding.getReachableHexes fuel start 0 w = []
    ∧ (∀ p ∈ Pathfinding.getReachableHexes fuel start range w,
        1 ≤ p.2 ∧ p.2 ≤ range ∧ p.1 ≠ start ∧ w p.1 = true)
    ∧ (∀ (s : GameState) (room : Room) (unit : Character),
        Combat.getRoom s = some room →
        ∀ p ∈ Combat.getReachableHexes fuel unit range s,
          Combat.isInBounds p.1 room = true
          ∧ (∀ wall ∈ room.walls, wall ≠ p.1)
          ∧ (∀ c ∈ s.characters, c.position ≠ p.1)
          ∧ (∀ e ∈ s.enemies, e.position ≠ p.1)) := by
  refine ⟨?_, ?_, ?_⟩
  · cases fuel with
    | zero => rfl
    | succ fuel =>
      show Pathfinding.bfsLoop w 0 (fuel + 1) [(start, 0)] [start] [] = []
      rw [show Pathfinding.bfsLoop w 0 (fuel + 1) [(start, 0)] [start] []
          = Pathfinding.bfsLoop w 0 fuel [] [start] [] from by
        simp [Pathfinding.bfsLoop]]
      exact bfsLoop_nil w 0 fuel [start] []
  · exact bfsLoop_entries w range start fuel [(start, 0)] [start] []
      (List.mem_singleton.mpr rfl)
      (by
        intro p hp
        have hpe : p = (start, 0) := by simpa using hp
        subst hpe
        exact ⟨by omega, Or.inl rfl⟩)
      (by simp)
  · intro s room unit hroom p hp
    have hgen := bfsLoop_entries (fun hex => Combat.isWalkable hex s) range unit.position
      fuel [(unit.position, 0)] [unit.position] []
      (List.mem_singleton.mpr rfl)
      (by
        intro q hq
        have hqe : q = (unit.position, 0) := by simpa using hq
        subst hqe
        exact ⟨by omega, Or.inl rfl⟩)
      (by simp) p hp
    have hw := hgen.2.2.2
    simp only [Combat.isWalkable, hroom] at hw
    simp only [Bool.and_eq_true, Bool.not_eq_true'] at hw
    obtain ⟨⟨⟨hin, hwall⟩, hchar⟩, hene⟩ := hw
    refine ⟨hin, ?_, ?_, ?_⟩
    · intro wallHex hwh
      have := List.any_eq_false.mp hwall wallHex hwh
      simpa using this
    · intro c hc
      have := List.any_eq_false.mp hchar c hc
      simpa using this
    · intro e he
      have := List.any_eq_false.mp hene e he
      simpa using this

/-- C8, witness: with no walls and Jack alone at `(0,0)` in room 1, hex
`(1,0)` is returned at distance 1; range 0 yields the empty list; and the
combat-predicate consequences hold at that entry. -/
theorem claim8_witness :
    Pathfinding.getReachableHexes 9 (⟨0, 0⟩ : Hex) 0 (fun _ => true) = []
    ∧ Combat.isInBounds (⟨1, 0⟩ : Hex)
        { id := 1
          name := "Stargate Arrival"
          width := 7
          height := 7
          startPositions := [⟨0, 0⟩, ⟨1, 0⟩, ⟨0, 1⟩, ⟨1, 1⟩]
          enemies :=
            [ ⟨"jaffa_warrior", ⟨5, 3⟩⟩, ⟨"jaffa_warrior", ⟨4, 4⟩⟩,
              ⟨"jaffa_warrior", ⟨6, 3⟩⟩, ⟨"jaffa_warrior", ⟨5, 5⟩⟩ ]
          walls := [] } = true
    ∧ ({ id := "jack", maxHealth := 10, health := 10, position := ⟨0, 0⟩ } : Character).position
        ≠ (⟨1, 0⟩ : Hex) := by
  have h := claim8_reachable_hexes_spec 9 ⟨0, 0⟩ 1 (fun _ => true)
  have h3 := h.2.2
    { phase := Phase.playing
      currentRoom := 1
      characters := [{ id := "jack", maxHealth := 10, health := 10, position := ⟨0, 0⟩ }]
      enemies := [] }
    { id := 1
      name := "Stargate Arrival"
      width := 7
      height := 7
      startPositions := [⟨0, 0⟩, ⟨1, 0⟩, ⟨0, 1⟩, ⟨1, 1⟩]
      enemies :=
        [ ⟨"jaffa_warrior", ⟨5, 3⟩⟩, ⟨"jaffa_warrior", ⟨4, 4⟩⟩,
          ⟨"jaffa_warrior", ⟨6, 3⟩⟩, ⟨"jaffa_warrior", ⟨5, 5⟩⟩ ]
      walls := [] }
    { id := "jack", maxHealth := 10, health := 10, position := ⟨0, 0⟩ }
    (by rfl) (⟨1, 0⟩, 1) (by decide)
  exact ⟨h.1, h3.1, h3.2.2.1 _ (by decide)⟩

/-! ## Claim C7 — A* findPath -/

/-- The lowest-`fScore` scan only ever picks a member of the open set. -/
theorem pickCurrent_mem (fScore : List (Hex × Nat)) :
    ∀ (openSet : List Hex) (acc : Option Hex × Option Nat) (c : Hex),
      (openSet.foldl
        (fun (acc : Option Hex × Option Nat) key =>
          let f := Pathfinding.mget fScore key
          if Pathfinding.oLt f acc.2 then (some key, f) else acc) acc).1 = some c →
      acc.1 = some c ∨ c ∈ openSet := by
  intro openSet
  induction openSet with
  | nil => exact fun acc c h => Or.inl h
  | cons k l ih =>
    intro acc c h
    rw [List.foldl_cons] at h
    rcases ih _ c h with h' | h'
    · by_cases hcond : Pathfinding.oLt (Pathfinding.mget fScore k) acc.2 = true
      · simp only [hcond, ite_true, if_pos] at h'
        have : k = c := by simpa using h'
        exact Or.inr (this ▸ List.mem_cons_self k l)
      · simp only [hcond, ite_false, if_neg, Bool.false_eq_true, not_false_eq_true] at h'
        exact Or.inl h'
    · exact Or.inr (List.mem_cons_of_mem _ h')

/-- One relaxation step adds at most the (walkable) neighbor to the open
set. -/
theorem relax_openSet (w : Hex → Bool) (goal current : Hex)
    (st : Pathfinding.AStarState) (n x : Hex)
    (hx : x ∈ (Pathfinding.relax w goal current st n).openSet) :
    x ∈ st.openSet ∨ (x = n ∧ w n = true) := by
  unfold Pathfinding.relax at hx
  by_cases hw : w n = true
  · simp only [hw, Bool.not_true, Bool.false_eq_true, ite_false] at hx
    cases hg : Pathfinding.mget st.gScore current with
    | none =>
      rw [hg] at hx
      exact Or.inl hx
    | some gCur =>
      rw [hg] at hx
      by_cases hlt : Pathfinding.oLt (some (gCur + 1)) (Pathfinding.mget st.gScore n) = true
      · simp only [hlt, ite_true, if_pos] at hx
        by_cases hmem : n ∈ st.openSet
        · simp only [hmem, ite_true, if_pos] at hx
          exact Or.inl hx
        · simp only [hmem, ite_false, if_neg, not_false_eq_true] at hx
          rcases List.mem_append.mp hx with h | h
          · exact Or.inl h
          · exact Or.inr ⟨by simpa using h, hw⟩
      · simp only [hlt, ite_false, if_neg, Bool.false_eq_true, not_false_eq_true] at hx
        exact Or.inl hx
  · have hw' : w n = false := by simpa using hw
    simp only [hw', Bool.not_false, ite_true, if_pos] at hx
    exact Or.inl hx

/-- The neighbor-relaxation fold adds only walkable neighbors of the
current hex to the open set. -/
theorem relaxFold_openSet (w : Hex → Bool) (goal current : Hex) :
    ∀ (nbrs : List Hex) (st : Pathfinding.AStarState) (x : Hex),
      x ∈ (nbrs.foldl (Pathfinding.relax w goal current) st).openSet →
      x ∈ st.openSet ∨ (x ∈ nbrs ∧ w x = true) := by
  intro nbrs
  induction nbrs with
  | nil => exact fun st x h => Or.inl h
  | cons n nbrs ih =>
    intro st x hx
    rw [List.foldl_cons] at hx
    rcases ih _ x hx with h | ⟨hn, hwx⟩
    · rcases relax_openSet w goal current st n x h with h' | ⟨rfl, hwn⟩
      · exact Or.inl h'
      · exact Or.inr ⟨List.mem_cons_self _ _, hwn⟩
    · exact Or.inr ⟨List.mem_cons_of_mem _ hn, hwx⟩

/-- A* main-loop invariant: if every open-set member is reachable from the
start and the goal is not, the loop can only exit by exhausting the open
set (or the budget) and returns the empty path. -/
theorem loop_unreachable (w : Hex → Bool) (start goal : Hex)
    (hng : ¬ Pathfinding.Reaches w start goal) :
    ∀ (fuel : Nat) (st : Pathfinding.AStarState),
      (∀ h ∈ st.openSet, Pathfinding.Reaches w start h) →
      Pathfinding.loop w goal fuel st = [] := by
  intro fuel
  induction fuel with
  | zero => intro st _; rfl
  | succ fuel ih =>
    intro st hinv
    by_cases hempty : st.openSet.isEmpty = true
    · simp only [Pathfinding.loop, hempty, ite_true, if_pos]
    · simp only [Pathfinding.loop, hempty, Bool.false_eq_true, ite_false]
      cases hpick : Pathfinding.pickCurrent st.openSet st.fScore with
      | none => rfl
      | some current =>
        have hcur : current ∈ st.openSet := by
          rcases pickCurrent_mem st.fScore st.openSet (none, none) current hpick with h | h
          · cases h
          · exact h
        have hr := hinv current hcur
        have hne : ¬ current = goal := fun he => hng (he ▸ hr)
        simp only [if_neg hne]
        apply ih
        intro x hx
        rcases relaxFold_openSet w goal current (HexMath.neighbors current)
            { st with openSet := st.openSet.erase current } x hx with h | ⟨hn, hwx⟩
        · exact hinv x (List.mem_of_mem_erase h)
        · exact Pathfinding.Reaches.step hr hn hwx

/-- C7.  `findPath` returns the single-hex path `[start]` when the start
equals the goal (this rule is tested first and takes precedence); for a
distinct goal it returns the empty path when the goal is not walkable; and
it returns the empty path whenever no sequence of walkable neighbor steps
connects the start to the goal — all of this for every iteration budget,
hence in particular for the terminating JS run. -/
theorem claim7_findPath_spec (fuel : Nat) (start goal : Hex) (w : Hex → Bool) :
    (start = goal → Pathfinding.findPath fuel start goal w = [start])
    ∧ (start ≠ goal → w goal = false → Pathfinding.findPath fuel start goal w = [])
    ∧ (¬ Pathfinding.Reaches w start goal → Pathfinding.findPath fuel start goal w = []) := by
  refine ⟨?_, ?_, ?_⟩
  · intro h
    unfold Pathfinding.findPath
    rw [if_pos h]
  · intro hne hwg
    unfold Pathfinding.findPath
    rw [if_neg hne]
    simp [hwg]
  · intro hng
    have hne : start ≠ goal := fun he => hng (he ▸ Pathfinding.Reaches.refl)
    unfold Pathfinding.findPath
    rw [if_neg hne]
    by_cases hwg : w goal = true
    · simp only [hwg, Bool.not_true, Bool.false_eq_true, ite_false]
      apply loop_unreachable w start goal hng
      intro h hh
      have : h = start := by simpa using hh
      exact this ▸ Pathfinding.Reaches.refl
    · have hwg' : w goal = false := by simpa using hwg
      simp [hwg']

/-- C7, witness: with everything walkable, `findPath` from a hex to itself
is that single hex; with nothing walkable, the goal `(1,0)` is unreachable
from `(0,0)` and the path is empty. -/
theorem claim7_witness :
    Pathfinding.findPath 5 ⟨0, 0⟩ ⟨0, 0⟩ (fun _ => true) = [⟨0, 0⟩]
    ∧ Pathfinding.findPath 5 ⟨0, 0⟩ ⟨1, 0⟩ (fun _ => false) = [] := by
  constructor
  · exact (claim7_findPath_spec 5 ⟨0, 0⟩ ⟨0, 0⟩ (fun _ => true)).1 rfl
  · have hall : ∀ x : Hex, Pathfinding.Reaches (fun _ => false) ⟨0, 0⟩ x → x = ⟨0, 0⟩ := by
      intro x h
      cases h with
      | refl => rfl
      | step _ _ hw => exact absurd hw (by decide)
    exact (claim7_findPath_spec 5 ⟨0, 0⟩ ⟨1, 0⟩ (fun _ => false)).2.2
      (fun h => absurd (hall _ h) (by decide))

end StargateTactics
